import Mathlib

/-!
# Geometry Wars 3D: the simulation core of `src/js/main.js`

A shallow embedding of the game-state part of the class `GeometryWars3D`.

Conventions of the embedding.

* JavaScript numbers are exact rationals (`ℚ`); `score`, `combo` and the boss `hp`, which the
  program only ever adds to, doubles or decrements, are integers; `level`, a loop bound that
  starts at 1 and is only incremented, is a natural number.
* `a.distanceTo(b) < r` is stated on squares: `distanceToSq a b < r * r`; likewise
  `v.length() > 50` is `lengthSq v > 2500`, and `0.1 / (d * d)` divides by the squared distance.
* The three.js operations that leave the rationals, and the sources of nondeterminism, are
  fields of `Env`: `Vector3.normalize`, `Object3D.lookAt`, `Math.sin`, `Math.cos`, the
  successive results of `Math.random()` and the successive readings of the clock.
* A method that can throw a `TypeError` returns `Except Game Game`: `.ok g` is the state when
  it returns, `.error g` the state at the moment of the throw.
* The scene graph, meshes, tweens and rotations of the rendering layer are not part of the
  state, and neither are timers whose callback only touches the scene. The one thing the
  simulation asks of the scene, the lookup by name of line 270, is `gridHelper`. The random
  numbers drawn by `createExplosion` and by the particle system are counted, because they
  come from the same generator.
* The one division that can be by zero, line 304, is followed into the `NaN` it produces
  (`Pull.captured none`); overflow and rounding of doubles are not modelled.
* The class body defines `animate` and `init` twice; the later definitions (lines 649 and
  670) are the ones in force and the ones embedded here.
-/

namespace GeometryWars

/-- A three.js `Vector3` with rational coordinates. -/
structure Vec3 where
  x : ℚ
  y : ℚ
  z : ℚ
deriving DecidableEq

namespace Vec3

/-- The value of `a.add(b)`. -/
def add (a b : Vec3) : Vec3 := ⟨a.x + b.x, a.y + b.y, a.z + b.z⟩

/-- The value of `new Vector3().subVectors(a, b)`. -/
def sub (a b : Vec3) : Vec3 := ⟨a.x - b.x, a.y - b.y, a.z - b.z⟩

/-- The value of `a.multiplyScalar(s)`; the caller decides whether `a` itself is overwritten. -/
def multiplyScalar (a : Vec3) (s : ℚ) : Vec3 := ⟨a.x * s, a.y * s, a.z * s⟩

/-- The square of `a.length()`. -/
def lengthSq (a : Vec3) : ℚ := a.x * a.x + a.y * a.y + a.z * a.z

/-- The square of `a.distanceTo(b)`. -/
def distanceToSq (a b : Vec3) : ℚ := (a.sub b).lengthSq

end Vec3

/-- The operations and inputs the program takes from its environment. -/
structure Env where
  /-- The value of `Vector3.normalize`; three.js leaves the zero vector as it is. -/
  normalize : Vec3 → Vec3
  /-- The image of `(0, 0, -1)` under the quaternion that `lookAt(target)` gives an object at
  the position in the first argument. -/
  lookAt : Vec3 → Vec3 → Vec3
  /-- The result of the `k`-th call of `Math.random()`. -/
  random : ℕ → ℚ
  /-- The reading, in seconds, of the `k`-th look at the system time by the clock. -/
  now : ℕ → ℚ
  /-- The value of `Math.sin`. -/
  sin : ℚ → ℚ
  /-- The value of `Math.cos`. -/
  cos : ℚ → ℚ

/-- The player mesh: `facing` is `(0, 0, -1)` rotated by the mesh quaternion. -/
structure Player where
  position : Vec3
  speed : ℚ
  facing : Vec3
deriving DecidableEq

/-- An enemy mesh. -/
structure Enemy where
  position : Vec3
  speed : ℚ
deriving DecidableEq

/-- A player bullet. -/
structure Bullet where
  position : Vec3
  speed : ℚ
  direction : Vec3
deriving DecidableEq

/-- A wormhole. -/
structure Wormhole where
  position : Vec3
deriving DecidableEq

/-- The entries of `powerUpTypes` (lines 108-112), by name. -/
inductive PowerUpType where
  | SpeedBoost
  | ScoreMultiplier
  | BlackHole
deriving DecidableEq

/-- A power-up mesh with the entry of `powerUpTypes` it carries. -/
structure PowerUp where
  position : Vec3
  type : PowerUpType
deriving DecidableEq

/-- A black hole. -/
structure BlackHole where
  position : Vec3
  lifespan : ℚ
deriving DecidableEq

/-- The boss. -/
structure Boss where
  position : Vec3
  hp : ℤ
deriving DecidableEq

/-- A bullet fired by the boss. -/
structure BossBullet where
  position : Vec3
  velocity : Vec3
deriving DecidableEq

/-- The state of a three.js `Clock` created with `autoStart` left at `true`. -/
structure Clock where
  running : Bool
  oldTime : ℚ
  elapsedTime : ℚ
deriving DecidableEq

/-- The pending `setTimeout` callbacks that write game state. -/
inductive Timer where
  /-- The callback of lines 197-203, due 5000 ms after the time warp started. -/
  | timeWarpEnd
  /-- The callback of lines 243-245, due `hyperJumpCooldown * 1000` ms after the jump. -/
  | hyperJumpCooldown
deriving DecidableEq

/-- The fields of a `GeometryWars3D` object that the simulation reads and writes. -/
structure Game where
  player : Player
  enemies : List Enemy
  bullets : List Bullet
  powerUps : List PowerUp
  wormholes : List Wormhole
  blackHoles : List BlackHole
  score : ℤ
  combo : ℤ
  level : ℕ
  timeWarpActive : Bool
  hyperJumpReady : Bool
  hyperJumpCooldown : ℚ
  boss : Option Boss
  bossBullets : List BossBullet
  clock : Clock
  /-- Pending `setTimeout` callbacks, oldest first. -/
  timers : List Timer
  /-- Pending frame callbacks of hyper jumps in flight: the `distance` each has covered. -/
  jumps : List ℚ
  /-- How often `gameOver` has been called. -/
  gameOverCalls : ℕ
  /-- How many calls of `Math.random()` have been made. -/
  randCalls : ℕ
  /-- How many readings of the system time the clock has taken. -/
  nowCalls : ℕ

/-- The value of `xs[k]` for an integer `k`: `none` stands for `undefined`. -/
def jsIndex {α : Type} (xs : List α) (k : ℤ) : Option α :=
  if 0 ≤ k then xs[k.toNat]? else none

/-! ## Construction of entities (lines 57-137) -/

/-- The player made by `createPlayer` (lines 57-66): at height 0.5 with speed 0.2; the
rotation by a quarter turn about the x axis sends `(0, 0, -1)` to `(0, 1, 0)`. -/
def createPlayer : Player := ⟨⟨0, 1 / 2, 0⟩, 1 / 5, ⟨0, 1, 0⟩⟩

/-- The method `createEnemy` (lines 68-80): three draws, for x, z and the speed. -/
def createEnemy (env : Env) (g : Game) : Enemy × Game :=
  (⟨⟨(env.random g.randCalls - 1 / 2) * 80, 1 / 2, (env.random (g.randCalls + 1) - 1 / 2) * 80⟩,
      1 / 20 + env.random (g.randCalls + 2) * (1 / 20)⟩,
    { g with randCalls := g.randCalls + 3 })

/-- The method `createBullet` (lines 82-91). -/
def createBullet (g : Game) : Bullet := ⟨g.player.position, 1 / 2, g.player.facing⟩

/-- The method `createWormhole` (lines 93-105): two draws, for x and z. -/
def createWormhole (env : Env) (g : Game) : Wormhole × Game :=
  (⟨⟨(env.random g.randCalls - 1 / 2) * 80, 1 / 2, (env.random (g.randCalls + 1) - 1 / 2) * 80⟩⟩,
    { g with randCalls := g.randCalls + 2 })

/-- The array `powerUpTypes` of lines 108-112. -/
def powerUpTypes : List PowerUpType :=
  [PowerUpType.SpeedBoost, PowerUpType.ScoreMultiplier, PowerUpType.BlackHole]

/-- The method `createPowerUp` (lines 107-126): one draw for the type, then two for x and z.
Reading `type.color` throws when the index misses the array. -/
def createPowerUp (env : Env) (g : Game) : Except Game (PowerUp × Game) :=
  match jsIndex powerUpTypes ⌊env.random g.randCalls * (powerUpTypes.length : ℚ)⌋ with
  | none => .error { g with randCalls := g.randCalls + 1 }
  | some type =>
    .ok (⟨⟨(env.random (g.randCalls + 1) - 1 / 2) * 80, 1 / 2,
            (env.random (g.randCalls + 2) - 1 / 2) * 80⟩, type⟩,
          { g with randCalls := g.randCalls + 3 })

/-- The method `createBlackHole` (lines 128-137). -/
def createBlackHole (position : Vec3) (g : Game) : Game :=
  { g with blackHoles := g.blackHoles ++ [⟨⟨position.x, 1 / 2, position.z⟩, 10⟩] }

/-- The `effect` closure of a power-up type (lines 109-111). -/
def effect (type : PowerUpType) (g : Game) : Game :=
  match type with
  | .SpeedBoost => { g with player := { g.player with speed := g.player.speed * (3 / 2) } }
  | .ScoreMultiplier => { g with combo := g.combo * 2 }
  | .BlackHole => createBlackHole g.player.position g

/-- The method `createExplosion` (lines 397-439), as far as the state goes: 20 particles with
three draws each. -/
def createExplosion (g : Game) : Game := { g with randCalls := g.randCalls + 60 }

/-! ## Spawning and levels (lines 139-155, 261-266) -/

/-- The loop of `spawnEnemies`, with the number of rounds still to run. -/
def spawnEnemiesLoop (env : Env) : ℕ → Game → Game
  | 0, g => g
  | n + 1, g =>
    spawnEnemiesLoop env n
      { (createEnemy env g).2 with enemies := g.enemies ++ [(createEnemy env g).1] }

/-- The method `spawnEnemies` (lines 139-143). -/
def spawnEnemies (env : Env) (g : Game) : Game := spawnEnemiesLoop env (g.level * 5) g

/-- The loop of `spawnPowerUps`, with the number of rounds still to run. -/
def spawnPowerUpsLoop (env : Env) : ℕ → Game → Except Game Game
  | 0, g => .ok g
  | n + 1, g =>
    match createPowerUp env g with
    | .error g1 => .error g1
    | .ok (powerUp, g1) => spawnPowerUpsLoop env n { g1 with powerUps := g1.powerUps ++ [powerUp] }

/-- The method `spawnPowerUps` (lines 145-149). -/
def spawnPowerUps (env : Env) (g : Game) : Except Game Game := spawnPowerUpsLoop env g.level g

/-- The loop of `createWormholes`, with the number of rounds still to run. -/
def createWormholesLoop (env : Env) : ℕ → Game → Game
  | 0, g => g
  | n + 1, g =>
    createWormholesLoop env n
      { (createWormhole env g).2 with wormholes := g.wormholes ++ [(createWormhole env g).1] }

/-- The method `createWormholes` (lines 151-155). -/
def createWormholes (env : Env) (g : Game) : Game := createWormholesLoop env g.level g

/-- The method `levelUp` (lines 261-266). -/
def levelUp (env : Env) (g : Game) : Except Game Game :=
  spawnPowerUps env (spawnEnemies env (createWormholes env { g with level := g.level + 1 }))

/-- The method `createBoss` (lines 566-578). -/
def createBoss (g : Game) : Game := { g with boss := some ⟨⟨0, 5, -30⟩, 100⟩ }

/-- The fields set by the constructor (lines 13-25) before it calls `init`. -/
def newGame : Game where
  player := createPlayer
  enemies := []
  bullets := []
  powerUps := []
  wormholes := []
  blackHoles := []
  score := 0
  combo := 1
  level := 1
  timeWarpActive := false
  hyperJumpReady := true
  hyperJumpCooldown := 30
  boss := none
  bossBullets := []
  clock := ⟨false, 0, 0⟩
  timers := []
  jumps := []
  gameOverCalls := 0
  randCalls := 0
  nowCalls := 0

/-- The method `init` in force (lines 670-687); `createParticleSystem` makes 1000 particles
with six draws each. -/
def init (env : Env) (g : Game) : Except Game Game :=
  match spawnPowerUps env (spawnEnemies env (createWormholes env g)) with
  | .error g1 => .error g1
  | .ok g1 =>
    .ok (if g1.level % 5 = 0 then
        createBoss { g1 with randCalls := g1.randCalls + 6000, bossBullets := [] }
      else { g1 with randCalls := g1.randCalls + 6000, bossBullets := [] })

/-! ## Input handlers (lines 186-246) -/

/-- The method `shoot` (lines 186-188). -/
def shoot (g : Game) : Game := { g with bullets := g.bullets ++ [createBullet g] }

/-- The method `activateTimeWarp` (lines 190-206). -/
def activateTimeWarp (g : Game) : Game :=
  if g.timeWarpActive then g
  else
    { g with
      timeWarpActive := true
      player := { g.player with speed := g.player.speed * 2 }
      enemies := g.enemies.map fun enemy => { enemy with speed := enemy.speed * (1 / 2) }
      timers := g.timers ++ [Timer.timeWarpEnd] }

/-- The callback of lines 197-203. -/
def timeWarpEnd (g : Game) : Game :=
  { g with
    timeWarpActive := false
    player := { g.player with speed := g.player.speed / 2 }
    enemies := g.enemies.map fun enemy => { enemy with speed := enemy.speed * 2 } }

/-- The closure `animate` of `activateHyperJump` (lines 229-240), run with the value
`distance` has before the call. -/
def hyperJumpFrame (env : Env) (distance : ℚ) (g : Game) : Except Game Game :=
  if distance + 2 < 100 then
    .ok { g with
      player := { g.player with
        position := { g.player.position with z := g.player.position.z - 2 } }
      jumps := g.jumps ++ [distance + 2] }
  else
    levelUp env { g with
      player := { g.player with
        position := { g.player.position with z := g.player.position.z - 2 } } }

/-- The method `activateHyperJump` (lines 221-246). -/
def activateHyperJump (env : Env) (g : Game) : Except Game Game :=
  if g.hyperJumpReady then
    match hyperJumpFrame env 0 { g with hyperJumpReady := false } with
    | .error g1 => .error g1
    | .ok g1 => .ok { g1 with timers := g1.timers ++ [Timer.hyperJumpCooldown] }
  else .ok g

/-- The callback of lines 243-245. -/
def hyperJumpCooldownEnd (g : Game) : Game := { g with hyperJumpReady := true }

/-- The method `gameOver` (lines 468-471): it only logs. -/
def gameOver (g : Game) : Game := { g with gameOverCalls := g.gameOverCalls + 1 }

/-! ## The clock -/

/-- The method `Clock.getDelta` of three.js: the first call starts the clock and returns 0;
every later call returns the time since the reading taken by the call before it and keeps the
new reading. -/
def getDelta (env : Env) (g : Game) : ℚ × Game :=
  if g.clock.running then
    (env.now g.nowCalls - g.clock.oldTime,
      { g with
        clock := ⟨true, env.now g.nowCalls,
          g.clock.elapsedTime + (env.now g.nowCalls - g.clock.oldTime)⟩
        nowCalls := g.nowCalls + 1 })
  else
    (0, { g with clock := ⟨true, env.now g.nowCalls, 0⟩, nowCalls := g.nowCalls + 1 })

/-- The method `Clock.getElapsedTime` of three.js: it calls `getDelta` and returns the total. -/
def getElapsedTime (env : Env) (g : Game) : ℚ × Game :=
  ((getDelta env g).2.clock.elapsedTime, (getDelta env g).2)

/-! ## The per-frame updates (lines 268-395) -/

/-- The wormhole loop, written twice in the source (lines 282-289 for the player, lines
319-326 for an enemy): `all` is `this.wormholes`, the list argument the part still to visit.
The result is the position afterwards and the number of `Math.random()` calls made so far;
`none` stands for the `TypeError` of reading `position` of `undefined`, raised after the draw. -/
def wormholeLoop (env : Env) (all : List Wormhole) (randCalls : ℕ) :
    List Wormhole → Vec3 → Option (Vec3 × ℕ)
  | [], position => some (position, randCalls)
  | wormhole :: rest, position =>
    if position.distanceToSq wormhole.position < 1 then
      match jsIndex all ⌊env.random randCalls * (all.length : ℚ)⌋ with
      | none => none
      | some destinationWormhole =>
        some (⟨destinationWormhole.position.x, 1 / 2, destinationWormhole.position.z⟩,
          randCalls + 1)
    else wormholeLoop env all randCalls rest position

/-- Lines 272-279 of `updatePlayer`: `target` is `intersects[0].point`, or `none` when the
ray cast finds nothing. -/
def movePlayer (env : Env) (target : Option Vec3) (g : Game) : Game :=
  match target with
  | none => g
  | some point =>
    { g with
      player :=
        { g.player with
          facing := env.lookAt g.player.position ⟨point.x, g.player.position.y, point.z⟩
          position :=
            g.player.position.add
              ((env.normalize
                ((Vec3.mk point.x g.player.position.y point.z).sub g.player.position)).multiplyScalar
                g.player.speed) } }

/-- Lines 281-289 of `updatePlayer`: the wormhole loop for the player. -/
def teleportPlayer (env : Env) (g : Game) : Except Game Game :=
  match wormholeLoop env g.wormholes g.randCalls g.wormholes g.player.position with
  | none => .error { g with randCalls := g.randCalls + 1 }
  | some (position, randCalls) =>
    .ok { g with player := { g.player with position := position }, randCalls := randCalls }

/-- The value of `this.scene.getObjectByName('gridHelper')` in line 270. `setupGrid` (lines
52-55) adds the grid to the scene without a name and no line of the program gives any object
a name, so the lookup finds no object: the value is `undefined`, here `none`. -/
def gridHelper : Option Unit := none

/-- The call `this.raycaster.intersectObject(object)` of line 270. three.js reads
`object.layers` before anything else, which throws a `TypeError` when `object` is
`undefined`: the result `none`. For an object it returns the intersections, of which line
273 uses the first point: `target`, or `none` when there is no intersection. -/
def intersectObject (target : Option Vec3) (object : Option Unit) : Option (Option Vec3) :=
  match object with
  | none => none
  | some _ => some target

/-- The method `updatePlayer` (lines 268-290). The ray cast of line 270 is handed the
`undefined` that `gridHelper` is, so the method throws there, before it moves the player
and before the wormhole loop. -/
def updatePlayer (env : Env) (target : Option Vec3) (g : Game) : Except Game Game :=
  match intersectObject target gridHelper with
  | none => .error g
  | some intersects => teleportPlayer env (movePlayer env intersects g)

/-- What the black-hole loop of `updateEnemies` makes of an enemy. -/
inductive Pull where
  /-- No black hole captured the enemy, which is now at `position`. -/
  | free (position : Vec3)
  /-- A black hole captured the enemy, which ends the loop. The enemy object is left at
  `position`; `none` stands for coordinates that are all `NaN`. -/
  | captured (position : Option Vec3)
deriving DecidableEq

/-- The black-hole loop of `updateEnemies` (lines 301-316) for an enemy at `position`. At
distance 0 from a black hole line 304 divides by zero: the pull strength is `Infinity`, the
pull direction, the normalised zero vector, is the zero vector, and their product, added to
the position, makes every coordinate `NaN`; the test of line 308 still sees the distance 0
and captures the enemy. -/
def blackHoleLoop (env : Env) : List BlackHole → Vec3 → Pull
  | [], position => .free position
  | blackHole :: rest, position =>
    if position.distanceToSq blackHole.position < 100 then
      if position.distanceToSq blackHole.position = 0 then .captured none
      else if position.distanceToSq blackHole.position < 1 then
        .captured
          (some
            (position.add
              ((env.normalize (blackHole.position.sub position)).multiplyScalar
                (1 / 10 / position.distanceToSq blackHole.position))))
      else
        blackHoleLoop env rest
          (position.add
            ((env.normalize (blackHole.position.sub position)).multiplyScalar
              (1 / 10 / position.distanceToSq blackHole.position)))
    else blackHoleLoop env rest position

/-- The position of an enemy after its move towards the player (lines 297-298). -/
def enemyMove (env : Env) (enemy : Enemy) (g : Game) : Vec3 :=
  enemy.position.add
    ((env.normalize (g.player.position.sub enemy.position)).multiplyScalar enemy.speed)

/-- The state once the black-hole loop has run for `enemies[i]` (lines 297-316): a captured
enemy is spliced out and scored, a free one carries its new position. -/
def enemyPulled (env : Env) (i : ℕ) (enemy : Enemy) (g : Game) : Game :=
  match blackHoleLoop env g.blackHoles (enemyMove env enemy g) with
  | .captured _ =>
    createExplosion
      { g with enemies := g.enemies.eraseIdx i, score := g.score + 50 * g.combo }
  | .free position => { g with enemies := g.enemies.set i { enemy with position := position } }

/-- The body of the loop of `updateEnemies` up to the wormhole loop (lines 294-326) for
`enemy = enemies[i]`: the state afterwards and the position the enemy object ends with,
`none` when its coordinates are `NaN`. The wormhole loop also runs for an enemy that was
just spliced out of the array; for `NaN` coordinates every test of line 320 is false. -/
def enemyStep (env : Env) (i : ℕ) (enemy : Enemy) (g : Game) :
    Except Game (Game × Option Vec3) :=
  match blackHoleLoop env g.blackHoles (enemyMove env enemy g) with
  | .captured none => .ok (enemyPulled env i enemy g, none)
  | .captured (some pulled) =>
    match wormholeLoop env g.wormholes (enemyPulled env i enemy g).randCalls g.wormholes
        pulled with
    | none =>
      .error
        { enemyPulled env i enemy g with randCalls := (enemyPulled env i enemy g).randCalls + 1 }
    | some (position, randCalls) =>
      .ok ({ enemyPulled env i enemy g with randCalls := randCalls }, some position)
  | .free pulled =>
    match wormholeLoop env g.wormholes (enemyPulled env i enemy g).randCalls g.wormholes
        pulled with
    | none =>
      .error
        { enemyPulled env i enemy g with randCalls := (enemyPulled env i enemy g).randCalls + 1 }
    | some (position, randCalls) =>
      .ok
        ({ enemyPulled env i enemy g with
            randCalls := randCalls
            enemies := (enemyPulled env i enemy g).enemies.set i { enemy with position := position } },
          some position)

/-- The loop of `updateEnemies` from index `i - 1` down to 0. For an enemy whose coordinates
are `NaN` the test of line 329 is false. -/
def updateEnemiesLoop (env : Env) : ℕ → Game → Except Game Game
  | 0, g => .ok g
  | i + 1, g =>
    match g.enemies[i]? with
    | none => .error g
    | some enemy =>
      match enemyStep env i enemy g with
      | .error g1 => .error g1
      | .ok (g1, none) => updateEnemiesLoop env i g1
      | .ok (g1, some position) =>
        if position.distanceToSq g1.player.position < 1 then .ok (gameOver g1)
        else updateEnemiesLoop env i g1

/-- The method `updateEnemies` (lines 292-334). -/
def updateEnemies (env : Env) (g : Game) : Except Game Game :=
  updateEnemiesLoop env g.enemies.length g

/-- The bullet after line 339: `direction.multiplyScalar(speed)` overwrites the direction
with the scaled vector, which is then added to the position. -/
def moveBullet (bullet : Bullet) : Bullet :=
  { bullet with
    direction := bullet.direction.multiplyScalar bullet.speed
    position := bullet.position.add (bullet.direction.multiplyScalar bullet.speed) }

/-- The inner loop of `updateBullets` (lines 349-360) for the moved bullet at index `i`, from
enemy index `j - 1` down to 0. -/
def bulletHitLoop (i : ℕ) (bullet : Bullet) : ℕ → Game → Except Game Game
  | 0, g => .ok g
  | j + 1, g =>
    match g.enemies[j]? with
    | none => .error g
    | some enemy =>
      if bullet.position.distanceToSq enemy.position < 1 then
        .ok (createExplosion
          { g with
            enemies := g.enemies.eraseIdx j
            bullets := g.bullets.eraseIdx i
            score := g.score + 10 * g.combo })
      else bulletHitLoop i bullet j g

/-- The loop of `updateBullets` from index `i - 1` down to 0. -/
def updateBulletsLoop : ℕ → Game → Except Game Game
  | 0, g => .ok g
  | i + 1, g =>
    match g.bullets[i]? with
    | none => .error g
    | some bullet =>
      if (moveBullet bullet).position.lengthSq > 2500 then
        updateBulletsLoop i { g with bullets := (g.bullets.set i (moveBullet bullet)).eraseIdx i }
      else
        match bulletHitLoop i (moveBullet bullet) g.enemies.length
            { g with bullets := g.bullets.set i (moveBullet bullet) } with
        | .error g1 => .error g1
        | .ok g1 => updateBulletsLoop i g1

/-- The method `updateBullets` (lines 336-362). -/
def updateBullets (g : Game) : Except Game Game := updateBulletsLoop g.bullets.length g

/-- The loop of `updatePowerUps` from index `i - 1` down to 0 (lines 365-376). -/
def updatePowerUpsLoop : ℕ → Game → Except Game Game
  | 0, g => .ok g
  | i + 1, g =>
    match g.powerUps[i]? with
    | none => .error g
    | some powerUp =>
      if powerUp.position.distanceToSq g.player.position < 1 then
        updatePowerUpsLoop i
          { effect powerUp.type g with powerUps := (effect powerUp.type g).powerUps.eraseIdx i }
      else updatePowerUpsLoop i g

/-- The replenishing step of `updatePowerUps` (lines 378-381). -/
def replenishPowerUps (env : Env) (g : Game) : Except Game Game :=
  if g.powerUps.length < g.level then
    match createPowerUp env g with
    | .error g1 => .error g1
    | .ok (powerUp, g1) => .ok { g1 with powerUps := g1.powerUps ++ [powerUp] }
  else .ok g

/-- The method `updatePowerUps` (lines 364-382). -/
def updatePowerUps (env : Env) (g : Game) : Except Game Game :=
  match updatePowerUpsLoop g.powerUps.length g with
  | .error g1 => .error g1
  | .ok g1 => replenishPowerUps env g1

/-- The loop of `updateBlackHoles` from index `i - 1` down to 0: every round calls
`this.clock.getDelta()` anew (line 388). -/
def updateBlackHolesLoop (env : Env) : ℕ → Game → Except Game Game
  | 0, g => .ok g
  | i + 1, g =>
    match g.blackHoles[i]? with
    | none => .error g
    | some blackHole =>
      if blackHole.lifespan - (getDelta env g).1 ≤ 0 then
        updateBlackHolesLoop env i
          { (getDelta env g).2 with blackHoles := g.blackHoles.eraseIdx i }
      else
        updateBlackHolesLoop env i
          { (getDelta env g).2 with
            blackHoles :=
              g.blackHoles.set i
                { blackHole with lifespan := blackHole.lifespan - (getDelta env g).1 } }

/-- The method `updateBlackHoles` (lines 384-395). -/
def updateBlackHoles (env : Env) (g : Game) : Except Game Game :=
  updateBlackHolesLoop env g.blackHoles.length g

/-- The method `updateParticleSystem` (lines 513-534), as far as the state goes: six draws
for each of the 1000 particles made by `createParticleSystem`. -/
def updateParticleSystem (g : Game) : Game := { g with randCalls := g.randCalls + 6000 }

/-! ## The boss (lines 566-646) -/

/-- The method `bossFire` (lines 610-621) for a live boss. -/
def bossFire (env : Env) (boss : Boss) (g : Game) : Game :=
  { g with
    bossBullets :=
      g.bossBullets ++
        [⟨boss.position,
          (env.normalize (g.player.position.sub boss.position)).multiplyScalar (3 / 10)⟩] }

/-- The method `defeatBoss` (lines 640-646): reading `this.boss.position` throws when there is
no boss. -/
def defeatBoss (env : Env) (g : Game) : Except Game Game :=
  match g.boss with
  | none => .error g
  | some _ => levelUp env { g with boss := none, score := g.score + 1000 * g.combo }

/-- The bullet loop of `updateBoss` (lines 596-607) from index `i - 1` down to 0: reading
`this.boss.position` throws once `defeatBoss` has set `this.boss` to `null`. -/
def updateBossLoop (env : Env) : ℕ → Game → Except Game Game
  | 0, g => .ok g
  | i + 1, g =>
    match g.bullets[i]?, g.boss with
    | none, _ => .error g
    | some _, none => .error g
    | some bullet, some boss =>
      if bullet.position.distanceToSq boss.position < 9 then
        if boss.hp - 1 ≤ 0 then
          match defeatBoss env
              (createExplosion
                { g with boss := some { boss with hp := boss.hp - 1 }
                         bullets := g.bullets.eraseIdx i }) with
          | .error g1 => .error g1
          | .ok g1 => updateBossLoop env i g1
        else
          updateBossLoop env i
            (createExplosion
              { g with boss := some { boss with hp := boss.hp - 1 }
                       bullets := g.bullets.eraseIdx i })
      else updateBossLoop env i g

/-- The boss of `updateBoss` after it has moved (lines 587-588): each of the two assignments
asks the clock for the elapsed time. -/
def movedBoss (env : Env) (boss : Boss) (g : Game) : Boss :=
  { boss with
    position :=
      ⟨env.sin ((getElapsedTime env g).1 * (1 / 2)) * 20, boss.position.y,
        env.cos ((getElapsedTime env (getElapsedTime env g).2).1 * (3 / 10)) * 20 - 20⟩ }

/-- The state of `updateBoss` after lines 587-591: the boss has moved, the clock was read
twice and `Math.random()` was called once. -/
def moveBoss (env : Env) (boss : Boss) (g : Game) : Game :=
  { (getElapsedTime env (getElapsedTime env g).2).2 with
    boss := some (movedBoss env boss g)
    randCalls := g.randCalls + 1 }

/-- The method `updateBoss` (lines 580-608). -/
def updateBoss (env : Env) (g : Game) : Except Game Game :=
  match g.boss with
  | none => .ok g
  | some boss =>
    if env.random g.randCalls < 1 / 50 then
      updateBossLoop env g.bullets.length (bossFire env (movedBoss env boss g) (moveBoss env boss g))
    else updateBossLoop env g.bullets.length (moveBoss env boss g)

/-- The loop of `updateBossBullets` (lines 623-638) from index `i - 1` down to 0. -/
def updateBossBulletsLoop : ℕ → Game → Except Game Game
  | 0, g => .ok g
  | i + 1, g =>
    match g.bossBullets[i]? with
    | none => .error g
    | some bullet =>
      if (bullet.position.add bullet.velocity).distanceToSq g.player.position < 1 then
        .ok (gameOver
          { g with
            bossBullets :=
              g.bossBullets.set i { bullet with position := bullet.position.add bullet.velocity } })
      else if (bullet.position.add bullet.velocity).lengthSq > 2500 then
        updateBossBulletsLoop i { g with bossBullets := g.bossBullets.eraseIdx i }
      else
        updateBossBulletsLoop i
          { g with
            bossBullets :=
              g.bossBullets.set i { bullet with position := bullet.position.add bullet.velocity } }

/-- The method `updateBossBullets` (lines 623-638). -/
def updateBossBullets (g : Game) : Except Game Game :=
  updateBossBulletsLoop g.bossBullets.length g

/-! ## The frame (lines 649-667) -/

/-- The boss part of `animate` (lines 659-662). -/
def bossPass (env : Env) (g : Game) : Except Game Game :=
  if g.boss.isSome then
    match updateBoss env g with
    | .error g1 => .error g1
    | .ok g1 => updateBossBullets g1
  else .ok g

/-- The part of `animate` that follows `updateEnemies` (lines 654-662). -/
def afterEnemies (env : Env) (g : Game) : Except Game Game :=
  match updateBullets g with
  | .error g1 => .error g1
  | .ok g1 =>
    match updatePowerUps env g1 with
    | .error g2 => .error g2
    | .ok g2 =>
      match updateBlackHoles env g2 with
      | .error g3 => .error g3
      | .ok g3 => bossPass env (updateParticleSystem g3)

/-- The method `animate` in force (lines 649-667): one tick. `target` is the point the ray
cast of `updatePlayer` would find, if any; since `updatePlayer` throws, the tick ends there,
before `updateEnemies` and every later pass. -/
def animate (env : Env) (target : Option Vec3) (g : Game) : Except Game Game :=
  match updatePlayer env target g with
  | .error g1 => .error g1
  | .ok g1 =>
    match updateEnemies env g1 with
    | .error g2 => .error g2
    | .ok g2 => afterEnemies env g2

/-! ## Runs of the program -/

/-- The things that can happen to a game: a frame, each of the update methods a frame is
made of called by itself, an input event, a pending callback coming due, and the methods the
claims name as operations of their own. -/
inductive Op where
  | animate (target : Option Vec3)
  | updatePlayer (target : Option Vec3)
  | updateEnemies
  | updateBullets
  | updatePowerUps
  | updateBlackHoles
  | updateParticleSystem
  | updateBoss
  | updateBossBullets
  | shoot
  | activateTimeWarp
  | activateHyperJump
  /-- The pending timer at index `k` fires. -/
  | timer (k : ℕ)
  /-- The pending hyper-jump frame callback at index `k` runs. -/
  | jumpFrame (k : ℕ)
  | levelUp
  | effect (type : PowerUpType)
  | defeatBoss

/-- The state after an operation, or at the throw that ended it. An index that names no
pending callback leaves the state as it is. -/
def step (env : Env) (op : Op) (g : Game) : Except Game Game :=
  match op with
  | .animate target => animate env target g
  | .updatePlayer target => updatePlayer env target g
  | .updateEnemies => updateEnemies env g
  | .updateBullets => updateBullets g
  | .updatePowerUps => updatePowerUps env g
  | .updateBlackHoles => updateBlackHoles env g
  | .updateParticleSystem => .ok (updateParticleSystem g)
  | .updateBoss => updateBoss env g
  | .updateBossBullets => updateBossBullets g
  | .shoot => .ok (shoot g)
  | .activateTimeWarp => .ok (activateTimeWarp g)
  | .activateHyperJump => activateHyperJump env g
  | .timer k =>
    match g.timers[k]? with
    | none => .ok g
    | some Timer.timeWarpEnd => .ok (timeWarpEnd { g with timers := g.timers.eraseIdx k })
    | some Timer.hyperJumpCooldown =>
      .ok (hyperJumpCooldownEnd { g with timers := g.timers.eraseIdx k })
  | .jumpFrame k =>
    match g.jumps[k]? with
    | none => .ok g
    | some distance => hyperJumpFrame env distance { g with jumps := g.jumps.eraseIdx k }
  | .levelUp => levelUp env g
  | .effect type => .ok (effect type g)
  | .defeatBoss => defeatBoss env g

/-- The state an outcome leaves behind, whether the operation returned or threw. -/
def stateOf (r : Except Game Game) : Game :=
  match r with
  | .ok g => g
  | .error g => g

/-- The states a game can be in: it starts with score 0 and combo 1, and every operation,
finished or interrupted by a throw, leads to another such state. -/
inductive Reachable (env : Env) : Game → Prop where
  | start (g : Game) (hscore : g.score = 0) (hcombo : g.combo = 1) : Reachable env g
  | next (op : Op) (g : Game) (h : Reachable env g) : Reachable env (stateOf (step env op g))

/-! ## Notions used to state the properties -/

/-- The test of line 351: the bullet is within distance 1 of the enemy. -/
def hits (bullet : Bullet) (enemy : Enemy) : Prop :=
  bullet.position.distanceToSq enemy.position < 1

instance (bullet : Bullet) (enemy : Enemy) : Decidable (hits bullet enemy) :=
  inferInstanceAs (Decidable (bullet.position.distanceToSq enemy.position < 1))

/-- The number of bullets in a list that line 342 finds out of bounds once they have moved. -/
def outOfBounds (bullets : List Bullet) : ℕ :=
  bullets.countP fun bullet => decide ((moveBullet bullet).position.lengthSq > 2500)

/-- The contract of `Math.random()`: every draw lies in `[0, 1)`. -/
def RandomOk (env : Env) : Prop := ∀ k, 0 ≤ env.random k ∧ env.random k < 1

/-- The index of the destination that lines 284 and 321 pick among `wormholes` with the
`k`-th draw `r` of `Math.random()`: `Math.floor(r * wormholes.length)`. -/
def destinationIndex (env : Env) (wormholes : List Wormhole) (k : ℕ) : ℕ :=
  ⌊env.random k * (wormholes.length : ℚ)⌋.toNat

/-- The test of line 370 for a player at `position`: the power-up is within distance 1. -/
def reached (position : Vec3) (powerUp : PowerUp) : Bool :=
  decide (powerUp.position.distanceToSq position < 1)

/-- The power-ups of a list that a player at `position` reaches. -/
def pickedUp (position : Vec3) (powerUps : List PowerUp) : List PowerUp :=
  powerUps.filter (reached position)

/-- The power-ups of a list that a player at `position` does not reach. -/
def passedBy (position : Vec3) (powerUps : List PowerUp) : List PowerUp :=
  powerUps.filter fun powerUp => !reached position powerUp

/-- The number of power-ups of a given type in a list. -/
def ofType (type : PowerUpType) (powerUps : List PowerUp) : ℕ :=
  powerUps.countP fun powerUp => decide (powerUp.type = type)

/-- The black hole that the `BlackHole` effect creates for a player at `position`. -/
def blackHoleAt (position : Vec3) : BlackHole := ⟨⟨position.x, 1 / 2, position.z⟩, 10⟩

/-- The state with the effects of the reached power-ups among `seen` applied once each and
those power-ups removed; `rest` are the power-ups not looked at. -/
def collect (g : Game) (seen rest : List PowerUp) : Game :=
  { g with
    powerUps := passedBy g.player.position seen ++ rest
    player :=
      { g.player with
        speed :=
          g.player.speed *
            (3 / 2) ^ ofType PowerUpType.SpeedBoost (pickedUp g.player.position seen) }
    combo := g.combo * 2 ^ ofType PowerUpType.ScoreMultiplier (pickedUp g.player.position seen)
    blackHoles :=
      g.blackHoles ++
        List.replicate (ofType PowerUpType.BlackHole (pickedUp g.player.position seen))
          (blackHoleAt g.player.position) }

/-- From `g` to `g'` neither score nor combo has gone down, provided the combo of `g` is at
least 1. -/
def Grows (g g' : Game) : Prop := 1 ≤ g.combo → g.score ≤ g'.score ∧ g.combo ≤ g'.combo

/-- The state after `n` successive runs of the pending hyper-jump frame callback at index
`k`, with nothing else happening in between; a throw ends the run. -/
def jumpFrames (env : Env) (k : ℕ) : ℕ → Game → Except Game Game
  | 0, g => .ok g
  | n + 1, g =>
    match step env (Op.jumpFrame k) g with
    | .error g1 => .error g1
    | .ok g1 => jumpFrames env k n g1

/-- The state `g` with the player moved by `dz` along z and `jumps` as the pending hyper-jump
callbacks. -/
def jumped (g : Game) (dz : ℚ) (jumps : List ℚ) : Game :=
  { g with
    player := { g.player with position := { g.player.position with z := g.player.position.z - dz } }
    jumps := jumps }

/-- The test of line 597: the bullet is within distance 3 of a boss at `position`. -/
def strikes (position : Vec3) (bullet : Bullet) : Prop :=
  bullet.position.distanceToSq position < 9

instance (position : Vec3) (bullet : Bullet) : Decidable (strikes position bullet) :=
  inferInstanceAs (Decidable (bullet.position.distanceToSq position < 9))

/-- The bullets of a list that are within distance 3 of a boss at `position`, in order. -/
def striking (position : Vec3) (bullets : List Bullet) : List Bullet :=
  bullets.filter fun bullet => decide (strikes position bullet)

/-- The bullets of a list that are not within distance 3 of a boss at `position`, in order. -/
def missing (position : Vec3) (bullets : List Bullet) : List Bullet :=
  bullets.filter fun bullet => decide (¬ strikes position bullet)

/-! ## Sample inputs -/

/-- A normalisation that is exact on vectors along the x axis and on the zero vector, and
returns every other vector as it is: it stands for `Vector3.normalize` in examples whose
vectors all lie along the x axis. -/
def normalizeAlongX (v : Vec3) : Vec3 :=
  if v.y = 0 ∧ v.z = 0 then ⟨v.x / |v.x|, 0, 0⟩ else v

/-- An environment for examples: every draw of `Math.random()` is 1/4 and the `k`-th reading
of the time is `k` sixtieths of a second. `lookAt` turns the z axis of a mesh towards the
target, so `(0, 0, -1)` ends up pointing away from it. `sin` and `cos` are exact at 0, the
only argument the examples pass them. -/
def sampleEnv : Env where
  normalize := normalizeAlongX
  lookAt := fun position target => normalizeAlongX (position.sub target)
  random := fun _ => 1 / 4
  now := fun k => (k : ℚ) / 60
  sin := fun _ => 0
  cos := fun _ => 1

/-- A bullet just fired from the origin towards negative z. -/
def sampleBullet : Bullet := ⟨⟨0, 1 / 2, 0⟩, 1 / 2, ⟨0, 0, -1⟩⟩

/-- A fresh game with one bullet, one enemy far from it and one enemy half a unit beyond the
place the bullet moves to. -/
def bulletGame : Game :=
  { newGame with
    bullets := [sampleBullet]
    enemies := [⟨⟨30, 1 / 2, 0⟩, 1 / 20⟩, ⟨⟨0, 1 / 2, -1⟩, 1 / 20⟩] }

/-- A game at level 4 with no boss. -/
def levelFourGame : Game := { newGame with level := 4 }

/-- A fresh game with one bullet in flight and nothing else. -/
def flightGame : Game := { newGame with bullets := [sampleBullet] }

/-- A fresh game with the player at the origin, one enemy one unit away along the x axis,
with the speed 1/16 that the draw 1/4 gives, and one bullet just fired by `shoot`. -/
def collisionGame : Game :=
  { newGame with
    enemies := [⟨⟨1, 1 / 2, 0⟩, 1 / 16⟩]
    bullets := [⟨⟨0, 1 / 2, 0⟩, 1 / 2, ⟨0, 1, 0⟩⟩] }

/-- The state of `collisionGame` once its enemy has moved, to within 15/16 of the player. -/
def collisionEnemyMoved : Game :=
  { collisionGame with enemies := [⟨⟨15 / 16, 1 / 2, 0⟩, 1 / 16⟩] }

/-- The state of `collisionGame` at the moment `updateEnemies` has called `gameOver`: the
bullet has not moved yet. -/
def collisionAtGameOver : Game := gameOver collisionEnemyMoved

/-- The state that the passes which follow `updateEnemies` in `animate` make of
`collisionAtGameOver` when they are called in that order: the bullet has moved, a power-up
has been spawned and the particle system has drawn its random numbers. -/
def collisionAfterPasses : Game :=
  { collisionAtGameOver with
    bullets := [⟨⟨0, 1, 0⟩, 1 / 2, ⟨0, 1 / 2, 0⟩⟩]
    powerUps := [⟨⟨-20, 1 / 2, -20⟩, PowerUpType.SpeedBoost⟩]
    randCalls := 6003 }

/-- A fresh game with the player at the origin, one enemy one unit away along the x axis and
two wormholes: the first far away, the second where the enemy is. -/
def escapeGame : Game :=
  { newGame with
    enemies := [⟨⟨1, 1 / 2, 0⟩, 1 / 16⟩]
    wormholes := [⟨⟨20, 1 / 2, 20⟩⟩, ⟨⟨1, 1 / 2, 0⟩⟩] }

/-- The state of `escapeGame` after `updateEnemies`: the enemy is at the first wormhole and
one random number has been drawn. -/
def escapeDone : Game :=
  { escapeGame with
    enemies := [⟨⟨20, 1 / 2, 20⟩, 1 / 16⟩]
    randCalls := 1 }

/-- An environment like `sampleEnv` whose first two draws, 1/2 and 81/160, put the wormhole
that the constructor creates at `(0, 1/2, 1/2)`. -/
def wormholeEnv : Env :=
  { sampleEnv with random := fun k => if k = 0 then 1 / 2 else if k = 1 then 81 / 160 else 1 / 4 }

/-- The state the constructor builds by `init` with the draws of `wormholeEnv`: the player
is at `(0, 1/2, 0)`, half a unit from the one wormhole. -/
def builtGame : Game := stateOf (init wormholeEnv newGame)

/-- An environment whose clock readings within one run of a loop are microseconds apart:
the first reading is at 1/60 s and each later one follows 1/60000 s after the one before. -/
def frameEnv : Env :=
  { sampleEnv with now := fun k => 1 / 60 + (k : ℚ) / 60000 }

/-- A game whose clock was last read at time 0 and that holds two black holes, each with
1/60 s left to live. -/
def twoHolesGame : Game :=
  { newGame with
    blackHoles := [⟨⟨5, 1 / 2, 5⟩, 1 / 60⟩, ⟨⟨-5, 1 / 2, -5⟩, 1 / 60⟩]
    clock := ⟨true, 0, 0⟩ }

/-- A game at level 2 with the player at the origin and three power-ups: a score multiplier
and a black hole within half a unit, and a speed boost far away. -/
def pickupGame : Game :=
  { newGame with
    level := 2
    powerUps :=
      [⟨⟨0, 1 / 2, 1 / 2⟩, PowerUpType.ScoreMultiplier⟩, ⟨⟨20, 1 / 2, 0⟩, PowerUpType.SpeedBoost⟩,
        ⟨⟨1 / 2, 1 / 2, 0⟩, PowerUpType.BlackHole⟩] }

/-- The fresh game after the effect of a score multiplier. -/
def doubledGame : Game :=
  stateOf (step sampleEnv (Op.effect PowerUpType.ScoreMultiplier) newGame)

/-- A fresh game whose hyper jump is not ready. -/
def coolingGame : Game := { newGame with hyperJumpReady := false }

/-- An environment in which the clock does not advance: every reading is 0, so the elapsed
time handed to `Math.sin` and `Math.cos` is 0, where the sample values 0 and 1 are exact. -/
def bossEnv : Env :=
  { sampleEnv with now := fun _ => 0 }

/-- A fresh game with a boss that has one hit point left and two bullets: the first far from
where the boss moves to, `(0, 5, 0)`, the second one unit from it. -/
def bossGame : Game :=
  { newGame with
    boss := some ⟨⟨0, 5, -30⟩, 1⟩
    bullets := [⟨⟨30, 1 / 2, 0⟩, 1 / 2, ⟨0, 0, -1⟩⟩, ⟨⟨0, 5, 1⟩, 1 / 2, ⟨0, 0, -1⟩⟩] }

/-- The state of `bossGame` when `updateBoss` enters its bullet loop. -/
def bossMoved : Game :=
  { bossGame with
    boss := some ⟨⟨0, 5, 0⟩, 1⟩
    clock := ⟨true, 0, 0⟩
    nowCalls := 2
    randCalls := 1 }

/-- The state of `bossGame` when `defeatBoss` calls `levelUp`. -/
def bossDefeated : Game :=
  { bossMoved with
    boss := none
    bullets := [⟨⟨30, 1 / 2, 0⟩, 1 / 2, ⟨0, 0, -1⟩⟩]
    score := 1000
    randCalls := 61 }

/-- A fresh game with a boss that has two hit points left and three bullets: the first and
the last within one unit of the place the boss moves to, `(0, 5, 0)`, the second far away. -/
def bossLastGame : Game :=
  { newGame with
    boss := some ⟨⟨0, 5, -30⟩, 2⟩
    bullets :=
      [⟨⟨0, 5, 1⟩, 1 / 2, ⟨0, 1, 0⟩⟩, ⟨⟨30, 1 / 2, 0⟩, 1 / 2, ⟨0, 1, 0⟩⟩,
        ⟨⟨1, 5, 0⟩, 1 / 2, ⟨0, 1, 0⟩⟩] }

/-- The game `bossLastGame` with a boss that has three hit points left. -/
def bossHitGame : Game := { bossLastGame with boss := some ⟨⟨0, 5, -30⟩, 3⟩ }

/-- A fresh game with the player at the origin, one enemy one unit away along the x axis, a
black hole halfway between them and a wormhole half a unit from the player. -/
def captureGame : Game :=
  { newGame with
    enemies := [⟨⟨1, 1 / 2, 0⟩, 1 / 10⟩]
    blackHoles := [⟨⟨1 / 2, 1 / 2, 0⟩, 10⟩]
    wormholes := [⟨⟨0, 1 / 2, 1 / 2⟩⟩] }

/-- The state of `captureGame` once the loop body of `updateEnemies` has run for its enemy:
the enemy is gone, 50 points are scored, and 61 random numbers have been drawn, 60 by the
explosion and one by the wormhole loop. -/
def captureDone : Game :=
  { captureGame with
    enemies := []
    score := 50
    randCalls := 61 }

/-! # Properties -/

/-! ## Lists -/

theorem take_set_self {α : Type} (l : List α) (i : ℕ) (a : α) :
    (l.set i a).take i = l.take i := by
  induction l generalizing i with
  | nil => simp
  | cons x xs ih => cases i <;> simp [ih]

theorem take_eraseIdx_self {α : Type} (l : List α) (i : ℕ) :
    (l.eraseIdx i).take i = l.take i := by
  induction l generalizing i with
  | nil => simp
  | cons x xs ih => cases i <;> simp [ih]

theorem drop_eraseIdx_self {α : Type} (l : List α) (i : ℕ) :
    (l.eraseIdx i).drop i = l.drop (i + 1) := by
  induction l generalizing i with
  | nil => simp
  | cons x xs ih => cases i <;> simp [ih]

theorem eraseIdx_set_self {α : Type} (l : List α) (i : ℕ) (a : α) :
    (l.set i a).eraseIdx i = l.eraseIdx i := by
  induction l generalizing i with
  | nil => simp
  | cons x xs ih => cases i <;> simp [ih]

theorem take_succ_of_getElem? {α : Type} (l : List α) (i : ℕ) (a : α) (h : l[i]? = some a) :
    l.take (i + 1) = l.take i ++ [a] := by
  rw [List.take_succ, h]; rfl

theorem lt_length_of_getElem? {α : Type} (l : List α) (i : ℕ) (a : α) (h : l[i]? = some a) :
    i < l.length := by
  by_contra hc
  rw [List.getElem?_eq_none (by omega)] at h
  cases h

theorem getElem?_of_lt {α : Type} (l : List α) (i : ℕ) (h : i < l.length) :
    ∃ a, l[i]? = some a :=
  ⟨l[i], List.getElem?_eq_getElem h⟩

theorem eraseIdx_append_cons {α : Type} (l₁ l₂ : List α) (a : α) :
    (l₁ ++ a :: l₂).eraseIdx l₁.length = l₁ ++ l₂ := by
  induction l₁ with
  | nil => simp
  | cons x xs ih => simp [ih]

/-! ## updateBullets -/

theorem bulletHitLoop_spec (i : ℕ) (b : Bullet) :
    ∀ (j : ℕ) (g : Game), j ≤ g.enemies.length →
      (bulletHitLoop i b j g = .ok g ∧ ∀ k e, k < j → g.enemies[k]? = some e → ¬ hits b e) ∨
      ∃ k e, k < j ∧ g.enemies[k]? = some e ∧ hits b e ∧
        (∀ k' e', k < k' → k' < j → g.enemies[k']? = some e' → ¬ hits b e') ∧
        bulletHitLoop i b j g = .ok (createExplosion
          { g with
            enemies := g.enemies.eraseIdx k
            bullets := g.bullets.eraseIdx i
            score := g.score + 10 * g.combo }) := by
  intro j
  induction j with
  | zero => intro g _; left; exact ⟨rfl, by intro k e hk; omega⟩
  | succ j ih =>
    intro g hj
    obtain ⟨e, he⟩ := getElem?_of_lt g.enemies j (by omega)
    by_cases hn : b.position.distanceToSq e.position < 1
    · right
      refine ⟨j, e, by omega, he, hn, by intro k' e' h1 h2; omega, ?_⟩
      simp [bulletHitLoop, he, hn]
    · have hstep : bulletHitLoop i b (j + 1) g = bulletHitLoop i b j g := by
        simp [bulletHitLoop, he, hn]
      rcases ih g (by omega) with ⟨h1, h2⟩ | ⟨k, e', hk, hke, hhit, hlater, hres⟩
      · left
        refine ⟨by rw [hstep, h1], ?_⟩
        intro k e' hk hke
        by_cases hkj : k = j
        · subst hkj
          rw [he] at hke
          cases hke
          exact hn
        · exact h2 k e' (by omega) hke
      · right
        refine ⟨k, e', by omega, hke, hhit, ?_, by rw [hstep, hres]⟩
        intro k' e'' h1 h2 h3
        by_cases hkj : k' = j
        · subst hkj
          rw [he] at h3
          cases h3
          exact hn
        · exact hlater k' e'' h1 (by omega) h3

theorem updateBulletsLoop_spec :
    ∀ (i : ℕ) (g : Game), i ≤ g.bullets.length →
      ∃ g' n, updateBulletsLoop i g = .ok g' ∧
        g'.enemies.length + n = g.enemies.length ∧
        g'.bullets.length + outOfBounds (g.bullets.take i) + n = g.bullets.length ∧
        g'.score = g.score + 10 * g.combo * (n : ℤ) ∧
        g'.combo = g.combo ∧ g'.enemies.Sublist g.enemies := by
  intro i
  induction i with
  | zero =>
    intro g _
    exact ⟨g, 0, rfl, by simp, by simp [outOfBounds], by simp, rfl, List.Sublist.refl _⟩
  | succ i ih =>
    intro g hi
    obtain ⟨b, hb⟩ := getElem?_of_lt g.bullets i (by omega)
    have htake : outOfBounds (g.bullets.take (i + 1)) =
        outOfBounds (g.bullets.take i) +
          (if (moveBullet b).position.lengthSq > 2500 then 1 else 0) := by
      rw [take_succ_of_getElem? _ _ _ hb]
      simp [outOfBounds, List.countP_append, List.countP_cons]
    by_cases hoob : (moveBullet b).position.lengthSq > 2500
    · have hstep : updateBulletsLoop (i + 1) g =
          updateBulletsLoop i
            { g with bullets := (g.bullets.set i (moveBullet b)).eraseIdx i } := by
        simp [updateBulletsLoop, hb, hoob]
      obtain ⟨g', n, h1, h2, h3, h4, h5, h6⟩ :=
        ih { g with bullets := (g.bullets.set i (moveBullet b)).eraseIdx i }
          (by simp [List.length_eraseIdx]; split <;> omega)
      refine ⟨g', n, by rw [hstep, h1], h2, ?_, h4, h5, h6⟩
      rw [htake, if_pos hoob]
      simp only [eraseIdx_set_self, take_eraseIdx_self] at h3
      rw [List.length_eraseIdx_of_lt (by omega)] at h3
      omega
    · rw [if_neg hoob] at htake
      rcases bulletHitLoop_spec i (moveBullet b) g.enemies.length
          { g with bullets := g.bullets.set i (moveBullet b) } (le_refl _) with
        ⟨h1, _⟩ | ⟨k, e, hk, hke, _, _, hres⟩
      · have hstep : updateBulletsLoop (i + 1) g =
            updateBulletsLoop i { g with bullets := g.bullets.set i (moveBullet b) } := by
          simp [updateBulletsLoop, hb, hoob, h1]
        obtain ⟨g', n, h1, h2, h3, h4, h5, h6⟩ :=
          ih { g with bullets := g.bullets.set i (moveBullet b) } (by simp; omega)
        refine ⟨g', n, by rw [hstep, h1], h2, ?_, h4, h5, h6⟩
        simp only [take_set_self, List.length_set] at h3
        omega
      · have hstep : updateBulletsLoop (i + 1) g =
            updateBulletsLoop i (createExplosion
              { g with
                enemies := g.enemies.eraseIdx k
                bullets := (g.bullets.set i (moveBullet b)).eraseIdx i
                score := g.score + 10 * g.combo }) := by
          simp [updateBulletsLoop, hb, hoob, hres]
        obtain ⟨g', n, h1, h2, h3, h4, h5, h6⟩ :=
          ih (createExplosion
              { g with
                enemies := g.enemies.eraseIdx k
                bullets := (g.bullets.set i (moveBullet b)).eraseIdx i
                score := g.score + 10 * g.combo })
            (by simp [createExplosion, List.length_eraseIdx]; split <;> omega)
        simp only [createExplosion, eraseIdx_set_self, take_eraseIdx_self] at h2 h3 h4 h5 h6
        rw [List.length_eraseIdx_of_lt (by omega)] at h3
        rw [List.length_eraseIdx_of_lt (by simpa using hk)] at h2
        refine ⟨g', n + 1, by rw [hstep, h1], by omega, by omega, ?_, h5,
          h6.trans (List.eraseIdx_sublist _ _)⟩
        rw [h4]; push_cast; ring

/-- C1. One run of `updateBullets` returns, and with `n` the number of enemies it removed:
the bullets it removed are the `outOfBounds` ones plus `n` (one bullet per enemy hit, at most
one enemy per bullet), the enemies left are a sublist of the old ones, the score went up by
`10 * combo * n` and the combo is unchanged. In particular a single in-bounds bullet that,
once moved, is within distance 1 of exactly one enemy leaves no bullet, removes that enemy
and no other, and adds exactly `10 * combo` to the score. -/
theorem updateBullets_hits_score (g : Game) :
    (∃ g' n, updateBullets g = .ok g' ∧
        g'.enemies.length + n = g.enemies.length ∧
        g'.bullets.length + outOfBounds g.bullets + n = g.bullets.length ∧
        g'.score = g.score + 10 * g.combo * (n : ℤ) ∧
        g'.combo = g.combo ∧ g'.enemies.Sublist g.enemies) ∧
    ∀ (b : Bullet) (before after : List Enemy) (e : Enemy),
      g.bullets = [b] → g.enemies = before ++ e :: after →
      ¬ (moveBullet b).position.lengthSq > 2500 →
      hits (moveBullet b) e → (∀ x ∈ before ++ after, ¬ hits (moveBullet b) x) →
      ∃ g', updateBullets g = .ok g' ∧ g'.bullets = [] ∧ g'.enemies = before ++ after ∧
        g'.score = g.score + 10 * g.combo ∧ g'.combo = g.combo := by
  constructor
  · have h := updateBulletsLoop_spec g.bullets.length g (le_refl _)
    simpa [updateBullets, List.take_length] using h
  · intro b before after e hb he hin hhit hothers
    rcases bulletHitLoop_spec 0 (moveBullet b) g.enemies.length
        { g with bullets := g.bullets.set 0 (moveBullet b) } (le_refl _) with
      ⟨_, hno⟩ | ⟨k, e', hk, hke, hhit', _, hres⟩
    · have hidx : (before ++ e :: after)[before.length]? = some e := by
        rw [List.getElem?_append_right (le_refl _)]; simp
      exact absurd hhit (hno before.length e (by simp [he]) (by simpa [he] using hidx))
    · have hk' : k = before.length := by
        simp only [he] at hke
        rcases Nat.lt_trichotomy k before.length with hlt | heq | hgt
        · rw [List.getElem?_append_left hlt] at hke
          exact absurd hhit' (hothers e' (List.mem_append_left _ (List.getElem?_mem hke)))
        · exact heq
        · rw [List.getElem?_append_right (by omega)] at hke
          obtain ⟨m, hm⟩ : ∃ m, k - before.length = m + 1 := ⟨k - before.length - 1, by omega⟩
          rw [hm, List.getElem?_cons_succ] at hke
          exact absurd hhit' (hothers e' (List.mem_append_right _ (List.getElem?_mem hke)))
      subst hk'
      refine ⟨createExplosion
        { g with enemies := before ++ after, bullets := [], score := g.score + 10 * g.combo },
        ?_, rfl, rfl, rfl, rfl⟩
      simp only [updateBullets, hb, List.length_singleton, updateBulletsLoop, zero_add,
        List.getElem?_cons_zero, if_neg hin]
      simp only [hb] at hres
      rw [hres]
      simp [he, eraseIdx_append_cons]

/-- Witness for C1: in `bulletGame` the bullet moves to within half a unit of the second
enemy only; the run leaves no bullet, the first enemy alone, and a score of 10. -/
theorem updateBullets_hits_score_witness :
    ∃ g', updateBullets bulletGame = .ok g' ∧ g'.bullets = [] ∧
      g'.enemies = [⟨⟨30, 1 / 2, 0⟩, 1 / 20⟩] ++ [] ∧
      g'.score = bulletGame.score + 10 * bulletGame.combo ∧ g'.combo = bulletGame.combo :=
  (updateBullets_hits_score bulletGame).2 sampleBullet [⟨⟨30, 1 / 2, 0⟩, 1 / 20⟩] []
    ⟨⟨0, 1 / 2, -1⟩, 1 / 20⟩ rfl rfl
    (by norm_num [moveBullet, sampleBullet, Vec3.lengthSq, Vec3.add, Vec3.multiplyScalar])
    (by norm_num [hits, moveBullet, sampleBullet, Vec3.distanceToSq, Vec3.lengthSq, Vec3.add,
      Vec3.sub, Vec3.multiplyScalar])
    (by
      intro x hx
      simp only [List.append_nil, List.mem_singleton] at hx
      subst hx
      norm_num [hits, moveBullet, sampleBullet, Vec3.distanceToSq, Vec3.lengthSq, Vec3.add,
        Vec3.sub, Vec3.multiplyScalar])

/-! ## Spawning and levelUp -/

theorem jsIndex_floor {α : Type} (xs : List α) (r : ℚ) (h0 : 0 ≤ r) (h1 : r < 1)
    (hne : xs ≠ []) :
    ∃ a, jsIndex xs ⌊r * (xs.length : ℚ)⌋ = some a ∧
      xs[⌊r * (xs.length : ℚ)⌋.toNat]? = some a ∧ ⌊r * (xs.length : ℚ)⌋.toNat < xs.length := by
  have hpos : (0 : ℚ) < xs.length := by
    have : 0 < xs.length := List.length_pos.mpr hne
    exact_mod_cast this
  have hnn : 0 ≤ ⌊r * (xs.length : ℚ)⌋ := Int.floor_nonneg.mpr (mul_nonneg h0 hpos.le)
  have hlt : ⌊r * (xs.length : ℚ)⌋ < (xs.length : ℤ) := by
    rw [Int.floor_lt]
    push_cast
    nlinarith
  have hidx : ⌊r * (xs.length : ℚ)⌋.toNat < xs.length := by omega
  obtain ⟨a, ha⟩ := getElem?_of_lt xs _ hidx
  exact ⟨a, by simp [jsIndex, hnn, ha], ha, hidx⟩

theorem createWormholesLoop_spec (env : Env) :
    ∀ (n : ℕ) (g : Game), ∃ new : List Wormhole, new.length = n ∧
      createWormholesLoop env n g =
        { g with wormholes := g.wormholes ++ new, randCalls := g.randCalls + 2 * n } := by
  intro n
  induction n with
  | zero => intro g; exact ⟨[], rfl, by simp [createWormholesLoop]⟩
  | succ n ih =>
    intro g
    obtain ⟨new, hlen, h⟩ :=
      ih { (createWormhole env g).2 with wormholes := g.wormholes ++ [(createWormhole env g).1] }
    refine ⟨(createWormhole env g).1 :: new, by simp [hlen], ?_⟩
    rw [createWormholesLoop, h]
    simp [createWormhole]
    omega

theorem spawnEnemiesLoop_spec (env : Env) :
    ∀ (n : ℕ) (g : Game), ∃ new : List Enemy, new.length = n ∧
      spawnEnemiesLoop env n g =
        { g with enemies := g.enemies ++ new, randCalls := g.randCalls + 3 * n } := by
  intro n
  induction n with
  | zero => intro g; exact ⟨[], rfl, by simp [spawnEnemiesLoop]⟩
  | succ n ih =>
    intro g
    obtain ⟨new, hlen, h⟩ :=
      ih { (createEnemy env g).2 with enemies := g.enemies ++ [(createEnemy env g).1] }
    refine ⟨(createEnemy env g).1 :: new, by simp [hlen], ?_⟩
    rw [spawnEnemiesLoop, h]
    simp [createEnemy]
    omega

theorem createPowerUp_cases (env : Env) (g : Game) :
    createPowerUp env g = .error { g with randCalls := g.randCalls + 1 } ∨
    ∃ powerUp, createPowerUp env g = .ok (powerUp, { g with randCalls := g.randCalls + 3 }) := by
  unfold createPowerUp
  split
  · left; rfl
  · right; exact ⟨_, rfl⟩

theorem createPowerUp_ok (env : Env) (g : Game) (hr : RandomOk env) :
    ∃ powerUp, createPowerUp env g = .ok (powerUp, { g with randCalls := g.randCalls + 3 }) := by
  obtain ⟨a, ha, _⟩ := jsIndex_floor powerUpTypes (env.random g.randCalls) (hr _).1 (hr _).2
    (by simp [powerUpTypes])
  unfold createPowerUp
  rw [ha]
  exact ⟨_, rfl⟩

theorem spawnPowerUpsLoop_state (env : Env) :
    ∀ (n : ℕ) (g : Game), ∃ (new : List PowerUp) (m : ℕ),
      stateOf (spawnPowerUpsLoop env n g) =
        { g with powerUps := g.powerUps ++ new, randCalls := g.randCalls + m } := by
  intro n
  induction n with
  | zero => intro g; exact ⟨[], 0, by simp [spawnPowerUpsLoop, stateOf]⟩
  | succ n ih =>
    intro g
    rcases createPowerUp_cases env g with h | ⟨p, h⟩
    · exact ⟨[], 1, by simp [spawnPowerUpsLoop, h, stateOf]⟩
    · obtain ⟨new, m, hs⟩ :=
        ih { g with randCalls := g.randCalls + 3, powerUps := g.powerUps ++ [p] }
      refine ⟨p :: new, 3 + m, ?_⟩
      simp only [spawnPowerUpsLoop, h]
      rw [hs]
      simp
      omega

theorem spawnPowerUpsLoop_ok (env : Env) (hr : RandomOk env) :
    ∀ (n : ℕ) (g : Game), ∃ new : List PowerUp, new.length = n ∧
      spawnPowerUpsLoop env n g =
        .ok { g with powerUps := g.powerUps ++ new, randCalls := g.randCalls + 3 * n } := by
  intro n
  induction n with
  | zero => intro g; exact ⟨[], rfl, by simp [spawnPowerUpsLoop]⟩
  | succ n ih =>
    intro g
    obtain ⟨p, h⟩ := createPowerUp_ok env g hr
    obtain ⟨new, hlen, hs⟩ :=
      ih { g with randCalls := g.randCalls + 3, powerUps := g.powerUps ++ [p] }
    refine ⟨p :: new, by simp [hlen], ?_⟩
    simp only [spawnPowerUpsLoop, h]
    rw [hs]
    simp
    omega

theorem levelUp_ok (env : Env) (g : Game) (hr : RandomOk env) :
    ∃ (ws : List Wormhole) (es : List Enemy) (ps : List PowerUp),
      ws.length = g.level + 1 ∧ es.length = (g.level + 1) * 5 ∧ ps.length = g.level + 1 ∧
      levelUp env g = .ok
        { g with
          level := g.level + 1
          wormholes := g.wormholes ++ ws
          enemies := g.enemies ++ es
          powerUps := g.powerUps ++ ps
          randCalls :=
            g.randCalls + 2 * (g.level + 1) + 3 * ((g.level + 1) * 5) + 3 * (g.level + 1) } := by
  obtain ⟨ws, hws, h1⟩ :=
    createWormholesLoop_spec env (g.level + 1) { g with level := g.level + 1 }
  have e1 : createWormholes env { g with level := g.level + 1 } =
      { g with
        level := g.level + 1
        wormholes := g.wormholes ++ ws
        randCalls := g.randCalls + 2 * (g.level + 1) } := by
    simp only [createWormholes, h1]
  obtain ⟨es, hes, h2⟩ := spawnEnemiesLoop_spec env ((g.level + 1) * 5)
    { g with
      level := g.level + 1
      wormholes := g.wormholes ++ ws
      randCalls := g.randCalls + 2 * (g.level + 1) }
  have e2 : spawnEnemies env (createWormholes env { g with level := g.level + 1 }) =
      { g with
        level := g.level + 1
        wormholes := g.wormholes ++ ws
        enemies := g.enemies ++ es
        randCalls := g.randCalls + 2 * (g.level + 1) + 3 * ((g.level + 1) * 5) } := by
    simp only [e1, spawnEnemies, h2]
  obtain ⟨ps, hps, h3⟩ := spawnPowerUpsLoop_ok env hr (g.level + 1)
    { g with
      level := g.level + 1
      wormholes := g.wormholes ++ ws
      enemies := g.enemies ++ es
      randCalls := g.randCalls + 2 * (g.level + 1) + 3 * ((g.level + 1) * 5) }
  refine ⟨ws, es, ps, hws, hes, hps, ?_⟩
  simp only [levelUp, e2, spawnPowerUps]
  exact h3

theorem levelUp_state (env : Env) (g : Game) :
    ∃ (ws : List Wormhole) (es : List Enemy) (ps : List PowerUp) (m : ℕ),
      stateOf (levelUp env g) =
        { g with
          level := g.level + 1
          wormholes := g.wormholes ++ ws
          enemies := g.enemies ++ es
          powerUps := g.powerUps ++ ps
          randCalls := g.randCalls + m } := by
  obtain ⟨ws, _, h1⟩ :=
    createWormholesLoop_spec env (g.level + 1) { g with level := g.level + 1 }
  have e1 : createWormholes env { g with level := g.level + 1 } =
      { g with
        level := g.level + 1
        wormholes := g.wormholes ++ ws
        randCalls := g.randCalls + 2 * (g.level + 1) } := by
    simp only [createWormholes, h1]
  obtain ⟨es, _, h2⟩ := spawnEnemiesLoop_spec env ((g.level + 1) * 5)
    { g with
      level := g.level + 1
      wormholes := g.wormholes ++ ws
      randCalls := g.randCalls + 2 * (g.level + 1) }
  have e2 : spawnEnemies env (createWormholes env { g with level := g.level + 1 }) =
      { g with
        level := g.level + 1
        wormholes := g.wormholes ++ ws
        enemies := g.enemies ++ es
        randCalls := g.randCalls + 2 * (g.level + 1) + 3 * ((g.level + 1) * 5) } := by
    simp only [e1, spawnEnemies, h2]
  obtain ⟨ps, m, h3⟩ := spawnPowerUpsLoop_state env (g.level + 1)
    { g with
      level := g.level + 1
      wormholes := g.wormholes ++ ws
      enemies := g.enemies ++ es
      randCalls := g.randCalls + 2 * (g.level + 1) + 3 * ((g.level + 1) * 5) }
  refine ⟨ws, es, ps, 2 * (g.level + 1) + 3 * ((g.level + 1) * 5) + m, ?_⟩
  simp only [levelUp, e2, spawnPowerUps]
  rw [h3]
  simp
  omega

theorem sampleEnv_randomOk : RandomOk sampleEnv := by
  intro k
  norm_num [sampleEnv]

/-- C2. With every draw of `Math.random()` in `[0, 1)`, `levelUp` at level `L` returns with
level `L + 1`, the old wormholes, enemies and power-ups kept in place and in order, followed
by exactly `L + 1` new wormholes, `5 * (L + 1)` new enemies and `L + 1` new power-ups, and with
score and combo unchanged. -/
theorem levelUp_appends (env : Env) (g : Game) (hr : RandomOk env) :
    ∃ (g' : Game) (ws : List Wormhole) (es : List Enemy) (ps : List PowerUp),
      levelUp env g = .ok g' ∧ g'.level = g.level + 1 ∧
      g'.wormholes = g.wormholes ++ ws ∧ ws.length = g.level + 1 ∧
      g'.enemies = g.enemies ++ es ∧ es.length = 5 * (g.level + 1) ∧
      g'.powerUps = g.powerUps ++ ps ∧ ps.length = g.level + 1 ∧
      g'.score = g.score ∧ g'.combo = g.combo := by
  obtain ⟨ws, es, ps, hws, hes, hps, h⟩ := levelUp_ok env g hr
  refine ⟨_, ws, es, ps, h, rfl, rfl, hws, rfl, ?_, rfl, hps, rfl, rfl⟩
  rw [hes]
  ring

/-- Witness for C2: `levelUp` on the fresh game, at level 1, with the sample draws. -/
theorem levelUp_appends_witness :
    ∃ (g' : Game) (ws : List Wormhole) (es : List Enemy) (ps : List PowerUp),
      levelUp sampleEnv newGame = .ok g' ∧ g'.level = newGame.level + 1 ∧
      g'.wormholes = newGame.wormholes ++ ws ∧ ws.length = newGame.level + 1 ∧
      g'.enemies = newGame.enemies ++ es ∧ es.length = 5 * (newGame.level + 1) ∧
      g'.powerUps = newGame.powerUps ++ ps ∧ ps.length = newGame.level + 1 ∧
      g'.score = newGame.score ∧ g'.combo = newGame.combo :=
  levelUp_appends sampleEnv newGame sampleEnv_randomOk

/-- C3, the code at the failing input: at level 4 with no boss alive, so that the new level 5
is a multiple of 5, `levelUp` returns at level 5 and there is still no boss. -/
theorem levelUp_to_five_no_boss :
    levelFourGame.boss = none ∧ (levelFourGame.level + 1) % 5 = 0 ∧
    ∃ g', levelUp sampleEnv levelFourGame = .ok g' ∧ g'.level = 5 ∧ g'.boss = none := by
  obtain ⟨ws, es, ps, _, _, _, h⟩ := levelUp_ok sampleEnv levelFourGame sampleEnv_randomOk
  exact ⟨rfl, rfl, _, h, rfl, rfl⟩

/-! ## Bullet flight -/

/-- After `n` moves a bullet still has its speed, and its direction is the one it was created
with scaled by `speed ^ n`, since line 339 scales it in place each time. -/
theorem moveBullet_iterate (b : Bullet) (n : ℕ) :
    (moveBullet^[n] b).speed = b.speed ∧
      (moveBullet^[n] b).direction = b.direction.multiplyScalar (b.speed ^ n) := by
  induction n with
  | zero => simp [Vec3.multiplyScalar]
  | succ n ih =>
    rw [Function.iterate_succ_apply']
    refine ⟨by simp [moveBullet, ih.1], ?_⟩
    simp only [moveBullet, ih.1, ih.2, Vec3.multiplyScalar, Vec3.mk.injEq]
    refine ⟨by ring, by ring, by ring⟩

/-- C4, the code at the failing input: after one run of `updateBullets` the bullet created
with direction `(0, 0, -1)` and speed 1/2 has direction `(0, 0, -1/2)`, and the second run
moves it by 1/4 only, to `z = -3/4` instead of `z = -1`. -/
theorem updateBullets_scales_direction :
    ∃ g₁ g₂, updateBullets flightGame = .ok g₁ ∧ updateBullets g₁ = .ok g₂ ∧
      g₁.bullets = [⟨⟨0, 1 / 2, -(1 / 2)⟩, 1 / 2, ⟨0, 0, -(1 / 2)⟩⟩] ∧
      g₂.bullets = [⟨⟨0, 1 / 2, -(3 / 4)⟩, 1 / 2, ⟨0, 0, -(1 / 4)⟩⟩] := by
  refine ⟨{ flightGame with bullets := [⟨⟨0, 1 / 2, -(1 / 2)⟩, 1 / 2, ⟨0, 0, -(1 / 2)⟩⟩] },
    { flightGame with bullets := [⟨⟨0, 1 / 2, -(3 / 4)⟩, 1 / 2, ⟨0, 0, -(1 / 4)⟩⟩] },
    ?_, ?_, rfl, rfl⟩
  · norm_num [updateBullets, updateBulletsLoop, bulletHitLoop, flightGame, newGame, sampleBullet,
      moveBullet, Vec3.lengthSq, Vec3.add, Vec3.multiplyScalar]
  · norm_num [updateBullets, updateBulletsLoop, bulletHitLoop, flightGame, newGame, sampleBullet,
      moveBullet, Vec3.lengthSq, Vec3.add, Vec3.multiplyScalar]

/-! ## Time warp -/

/-- C6. While the time warp is active `activateTimeWarp` returns the state it was given, with
the same player speed, enemy speeds, flag and pending timers, and so does any number of calls
in a row. -/
theorem activateTimeWarp_active_noop (g : Game) (h : g.timeWarpActive = true) :
    activateTimeWarp g = g ∧ ∀ n : ℕ, activateTimeWarp^[n] g = g := by
  have h1 : activateTimeWarp g = g := by simp [activateTimeWarp, h]
  refine ⟨h1, ?_⟩
  intro n
  induction n with
  | zero => rfl
  | succ n ih => rw [Function.iterate_succ_apply, h1, ih]

/-- Witness for C6: the state right after a first activation on the fresh game. -/
theorem activateTimeWarp_active_noop_witness :
    (activateTimeWarp newGame).timeWarpActive = true ∧
      activateTimeWarp (activateTimeWarp newGame) = activateTimeWarp newGame ∧
      ∀ n : ℕ, activateTimeWarp^[n] (activateTimeWarp newGame) = activateTimeWarp newGame :=
  ⟨rfl, activateTimeWarp_active_noop (activateTimeWarp newGame) rfl⟩

/-! ## Wormholes -/

theorem wormholeLoop_far (env : Env) (all : List Wormhole) (k : ℕ) (position : Vec3) :
    ∀ rest : List Wormhole, (∀ w ∈ rest, ¬ position.distanceToSq w.position < 1) →
      wormholeLoop env all k rest position = some (position, k) := by
  intro rest
  induction rest with
  | nil => intro _; rfl
  | cons w rest ih =>
    intro h
    simp only [wormholeLoop, if_neg (h w (List.mem_cons_self _ _))]
    exact ih fun w' hw' => h w' (List.mem_cons_of_mem _ hw')

theorem wormholeLoop_near (env : Env) (all : List Wormhole) (k : ℕ) (position : Vec3)
    (dest : Wormhole) (hdest : jsIndex all ⌊env.random k * (all.length : ℚ)⌋ = some dest) :
    ∀ rest : List Wormhole, (∃ w ∈ rest, position.distanceToSq w.position < 1) →
      wormholeLoop env all k rest position =
        some (⟨dest.position.x, 1 / 2, dest.position.z⟩, k + 1) := by
  intro rest
  induction rest with
  | nil => rintro ⟨w, hw, _⟩; cases hw
  | cons w rest ih =>
    rintro ⟨w', hw', hnear⟩
    by_cases hw : position.distanceToSq w.position < 1
    · simp only [wormholeLoop, if_pos hw, hdest]
    · simp only [wormholeLoop, if_neg hw]
      rcases List.mem_cons.mp hw' with rfl | hmem
      · exact absurd hnear hw
      · exact ih ⟨w', hmem, hnear⟩

theorem teleport_spec (env : Env) (ws : List Wormhole) (k : ℕ) (position : Vec3)
    (h0 : 0 ≤ env.random k) (h1 : env.random k < 1)
    (hnear : ∃ w ∈ ws, position.distanceToSq w.position < 1) :
    ∃ dest, ws[destinationIndex env ws k]? = some dest ∧ destinationIndex env ws k < ws.length ∧
      wormholeLoop env ws k ws position =
        some (⟨dest.position.x, 1 / 2, dest.position.z⟩, k + 1) := by
  have hne : ws ≠ [] := by
    rintro rfl
    obtain ⟨w, hw, _⟩ := hnear
    cases hw
  obtain ⟨dest, hjs, hget, hlt⟩ := jsIndex_floor ws (env.random k) h0 h1 hne
  exact ⟨dest, hget, hlt, wormholeLoop_near env ws k position dest hjs ws hnear⟩

/-- The two wormhole loops as written, with every draw of `Math.random()` in `[0, 1)`:
lines 281-289 for the player, which no call of `updatePlayer` reaches, and lines 319-326 for
an enemy after the black-hole loop. When the position handed to the loop is within distance
1 of some wormhole, the index `⌊r * n⌋`
of the one draw made is a valid index into the `n` wormholes and the entity ends at the x and
z of the wormhole at that index with height 1/2; with one wormhole, that is the
destination. -/
theorem wormholeLoop_teleports (env : Env) (g : Game) (hr : RandomOk env) :
    (∀ target : Option Vec3,
      (∃ w ∈ g.wormholes,
        (movePlayer env target g).player.position.distanceToSq w.position < 1) →
      ∃ dest, g.wormholes[destinationIndex env g.wormholes g.randCalls]? = some dest ∧
        destinationIndex env g.wormholes g.randCalls < g.wormholes.length ∧
        (∀ w, g.wormholes = [w] → dest = w) ∧
        teleportPlayer env (movePlayer env target g) = .ok
          { movePlayer env target g with
            player :=
              { (movePlayer env target g).player with
                position := ⟨dest.position.x, 1 / 2, dest.position.z⟩ }
            randCalls := g.randCalls + 1 }) ∧
    (∀ (i : ℕ) (enemy : Enemy) (pulled : Vec3),
      (blackHoleLoop env g.blackHoles (enemyMove env enemy g) = .free pulled ∨
        blackHoleLoop env g.blackHoles (enemyMove env enemy g) = .captured (some pulled)) →
      (∃ w ∈ g.wormholes, pulled.distanceToSq w.position < 1) →
      ∃ dest g',
        g.wormholes[destinationIndex env g.wormholes (enemyPulled env i enemy g).randCalls]? =
          some dest ∧
        destinationIndex env g.wormholes (enemyPulled env i enemy g).randCalls
          < g.wormholes.length ∧
        (∀ w, g.wormholes = [w] → dest = w) ∧
        enemyStep env i enemy g = .ok (g', some ⟨dest.position.x, 1 / 2, dest.position.z⟩) ∧
        g'.randCalls = (enemyPulled env i enemy g).randCalls + 1 ∧
        (blackHoleLoop env g.blackHoles (enemyMove env enemy g) = .free pulled →
          g'.enemies =
            g.enemies.set i { enemy with position := ⟨dest.position.x, 1 / 2, dest.position.z⟩ })) := by
  have hone : ∀ (k : ℕ) (dest w : Wormhole), g.wormholes = [w] →
      g.wormholes[destinationIndex env g.wormholes k]? = some dest →
      destinationIndex env g.wormholes k < g.wormholes.length → dest = w := by
    intro k dest w hw hget hlt
    rw [hw] at hget hlt
    have h0 : destinationIndex env [w] k = 0 := by simpa using hlt
    rw [h0] at hget
    simpa using hget.symm
  constructor
  · intro target hnear
    have hw : (movePlayer env target g).wormholes = g.wormholes := by
      cases target <;> rfl
    have hk : (movePlayer env target g).randCalls = g.randCalls := by
      cases target <;> rfl
    obtain ⟨dest, hget, hlt, hloop⟩ := teleport_spec env g.wormholes g.randCalls
      (movePlayer env target g).player.position (hr _).1 (hr _).2 hnear
    refine ⟨dest, hget, hlt, fun w hw' => hone _ dest w hw' hget hlt, ?_⟩
    simp only [teleportPlayer, hw, hk, hloop]
  · intro i enemy pulled hpull hnear
    obtain ⟨dest, hget, hlt, hloop⟩ := teleport_spec env g.wormholes
      (enemyPulled env i enemy g).randCalls pulled (hr _).1 (hr _).2 hnear
    rcases hpull with hfree | hcap
    · refine ⟨dest,
        { enemyPulled env i enemy g with
          randCalls := (enemyPulled env i enemy g).randCalls + 1
          enemies :=
            (enemyPulled env i enemy g).enemies.set i
              { enemy with position := ⟨dest.position.x, 1 / 2, dest.position.z⟩ } },
        hget, hlt, fun w hw' => hone _ dest w hw' hget hlt, ?_, rfl, ?_⟩
      · simp only [enemyStep, hfree, hloop]
      · intro _
        simp [enemyPulled, hfree]
    · refine ⟨dest,
        { enemyPulled env i enemy g with
          randCalls := (enemyPulled env i enemy g).randCalls + 1 },
        hget, hlt, fun w hw' => hone _ dest w hw' hget hlt, ?_, rfl, ?_⟩
      · simp only [enemyStep, hcap, hloop]
      · intro hfree
        rw [hcap] at hfree
        cases hfree

/-- The state the constructor builds with the draws of `wormholeEnv`, field by field. -/
theorem builtGame_eq :
    builtGame =
      { newGame with
        wormholes := [⟨⟨0, 1 / 2, 1 / 2⟩⟩]
        enemies := List.replicate 5 ⟨⟨-20, 1 / 2, -20⟩, 1 / 16⟩
        powerUps := [⟨⟨-20, 1 / 2, -20⟩, PowerUpType.SpeedBoost⟩]
        randCalls := 6020 } := by
  norm_num [builtGame, stateOf, init, createWormholes, createWormholesLoop, createWormhole,
    spawnEnemies, spawnEnemiesLoop, createEnemy, spawnPowerUps, spawnPowerUpsLoop, createPowerUp,
    jsIndex, powerUpTypes, newGame, wormholeEnv, sampleEnv, List.replicate]

/-- C7, the code at the failing input: in the state the constructor builds with the draws
of `wormholeEnv` the player is half a unit from the only wormhole. `updatePlayer` throws at
the ray cast of line 270, whatever the pointer: the state at the throw is the state it was
given, so the player has not been teleported and no random number has been drawn. -/
theorem updatePlayer_throws_before_teleport :
    builtGame.player.position = ⟨0, 1 / 2, 0⟩ ∧ builtGame.wormholes = [⟨⟨0, 1 / 2, 1 / 2⟩⟩] ∧
    (∃ w ∈ builtGame.wormholes, builtGame.player.position.distanceToSq w.position < 1) ∧
    ∀ target : Option Vec3, updatePlayer wormholeEnv target builtGame = .error builtGame := by
  have hpos : builtGame.player.position = ⟨0, 1 / 2, 0⟩ := by
    rw [builtGame_eq]; rfl
  have hws : builtGame.wormholes = [⟨⟨0, 1 / 2, 1 / 2⟩⟩] := by
    rw [builtGame_eq]
  refine ⟨hpos, hws, ⟨⟨⟨0, 1 / 2, 1 / 2⟩⟩, by rw [hws]; simp, ?_⟩, fun target => rfl⟩
  rw [hpos]
  norm_num [Vec3.distanceToSq, Vec3.sub, Vec3.lengthSq]

/-! ## Game over -/

theorem enemyStep_frame (env : Env) (i : ℕ) (enemy : Enemy) (g g1 : Game)
    (position : Option Vec3) (hstep : enemyStep env i enemy g = .ok (g1, position)) :
    g1.gameOverCalls = g.gameOverCalls ∧ g1.enemies.take i = g.enemies.take i ∧
      g1.player = g.player := by
  unfold enemyStep at hstep
  cases hb : blackHoleLoop env g.blackHoles (enemyMove env enemy g) with
  | free pulled =>
    rw [hb] at hstep
    simp only at hstep
    split at hstep
    · cases hstep
    · simp only [Except.ok.injEq, Prod.mk.injEq] at hstep
      obtain ⟨rfl, _⟩ := hstep
      simp [enemyPulled, hb, take_set_self]
  | captured pulled =>
    rw [hb] at hstep
    cases pulled with
    | none =>
      simp only [Except.ok.injEq, Prod.mk.injEq] at hstep
      obtain ⟨rfl, _⟩ := hstep
      simp [enemyPulled, hb, createExplosion, take_eraseIdx_self]
    | some pulled =>
      simp only at hstep
      split at hstep
      · cases hstep
      · simp only [Except.ok.injEq, Prod.mk.injEq] at hstep
        obtain ⟨rfl, _⟩ := hstep
        simp [enemyPulled, hb, createExplosion, take_eraseIdx_self]

/-- C5, as amended. When the loop of `updateEnemies` is at index `i` in state `g` and the
enemy there, at the check of line 329 (after its move, the black-hole loop and the wormhole
loop), is within distance 1 of the player, the loop calls `gameOver` once and returns at
once, and so does `updateEnemies` when that enemy is the first it handles. The enemies below
index `i` are as they were, and bullets, power-ups, black holes, score and combo are the same
when `updateEnemies` returns as at the moment `gameOver` was called. -/
theorem updateEnemies_gameOver_halts (env : Env) (i : ℕ) (g g1 : Game) (enemy : Enemy)
    (position : Vec3) (hi : g.enemies[i]? = some enemy)
    (hstep : enemyStep env i enemy g = .ok (g1, some position))
    (hnear : position.distanceToSq g1.player.position < 1) :
    updateEnemiesLoop env (i + 1) g = .ok (gameOver g1) ∧
    (i + 1 = g.enemies.length → updateEnemies env g = .ok (gameOver g1)) ∧
    (gameOver g1).gameOverCalls = g.gameOverCalls + 1 ∧
    (gameOver g1).enemies.take i = g.enemies.take i ∧
    (gameOver g1).bullets = g1.bullets ∧ (gameOver g1).powerUps = g1.powerUps ∧
    (gameOver g1).blackHoles = g1.blackHoles ∧ (gameOver g1).score = g1.score ∧
    (gameOver g1).combo = g1.combo := by
  have hloop : updateEnemiesLoop env (i + 1) g = .ok (gameOver g1) := by
    simp only [updateEnemiesLoop, hi, hstep, if_pos hnear]
  obtain ⟨h1, h2, _⟩ := enemyStep_frame env i enemy g g1 (some position) hstep
  refine ⟨hloop, ?_, by simp [gameOver, h1], by simpa [gameOver] using h2,
    rfl, rfl, rfl, rfl, rfl⟩
  intro hlen
  rw [updateEnemies, ← hlen, hloop]

/-- Witness for C5: the only enemy of `collisionGame` moves to within 15/16 of the player. -/
theorem updateEnemies_gameOver_halts_witness :
    updateEnemiesLoop sampleEnv (0 + 1) collisionGame = .ok (gameOver collisionEnemyMoved) ∧
    (0 + 1 = collisionGame.enemies.length →
      updateEnemies sampleEnv collisionGame = .ok (gameOver collisionEnemyMoved)) ∧
    (gameOver collisionEnemyMoved).gameOverCalls = collisionGame.gameOverCalls + 1 ∧
    (gameOver collisionEnemyMoved).enemies.take 0 = collisionGame.enemies.take 0 ∧
    (gameOver collisionEnemyMoved).bullets = collisionEnemyMoved.bullets ∧
    (gameOver collisionEnemyMoved).powerUps = collisionEnemyMoved.powerUps ∧
    (gameOver collisionEnemyMoved).blackHoles = collisionEnemyMoved.blackHoles ∧
    (gameOver collisionEnemyMoved).score = collisionEnemyMoved.score ∧
    (gameOver collisionEnemyMoved).combo = collisionEnemyMoved.combo :=
  updateEnemies_gameOver_halts sampleEnv 0 collisionGame collisionEnemyMoved
    ⟨⟨1, 1 / 2, 0⟩, 1 / 16⟩ ⟨15 / 16, 1 / 2, 0⟩ rfl
    (by
      norm_num [enemyStep, enemyPulled, enemyMove, blackHoleLoop, wormholeLoop,
        collisionEnemyMoved, collisionGame, newGame, createPlayer, sampleEnv, normalizeAlongX,
        Vec3.sub, Vec3.add, Vec3.multiplyScalar])
    (by
      norm_num [collisionEnemyMoved, collisionGame, newGame, createPlayer, Vec3.distanceToSq,
        Vec3.sub, Vec3.lengthSq])

/-- C5 as stated fails, in three ways. In `collisionGame` the enemy, after its move, is
within distance 1 of the player, yet the tick throws in `updatePlayer` before `updateEnemies`
runs and `gameOver` is not called. Called by itself `updateEnemies` does call `gameOver`, but
the passes that follow it in `animate` do not test for that: called in order on the state
`gameOver` left, they still move the bullet. And in `escapeGame` the enemy, after its move,
is within distance 1 of the player as well, but the wormhole loop, which runs before the
check against the player, takes it away: `updateEnemies` returns without calling
`gameOver`. -/
theorem tick_throws_before_gameOver :
    (enemyMove sampleEnv ⟨⟨1, 1 / 2, 0⟩, 1 / 16⟩ collisionGame = ⟨15 / 16, 1 / 2, 0⟩ ∧
      (Vec3.mk (15 / 16) (1 / 2) 0).distanceToSq collisionGame.player.position < 1 ∧
      animate sampleEnv none collisionGame = .error collisionGame ∧
      (stateOf (animate sampleEnv none collisionGame)).gameOverCalls =
        collisionGame.gameOverCalls ∧
      updateEnemies sampleEnv collisionGame = .ok collisionAtGameOver ∧
      collisionAtGameOver.gameOverCalls = collisionGame.gameOverCalls + 1 ∧
      afterEnemies sampleEnv collisionAtGameOver = .ok collisionAfterPasses ∧
      collisionAfterPasses.bullets ≠ collisionAtGameOver.bullets) ∧
    (enemyMove sampleEnv ⟨⟨1, 1 / 2, 0⟩, 1 / 16⟩ escapeGame = ⟨15 / 16, 1 / 2, 0⟩ ∧
      (Vec3.mk (15 / 16) (1 / 2) 0).distanceToSq escapeGame.player.position < 1 ∧
      updateEnemies sampleEnv escapeGame = .ok escapeDone ∧
      escapeDone.gameOverCalls = escapeGame.gameOverCalls) := by
  have he : updateEnemies sampleEnv collisionGame = .ok collisionAtGameOver := by
    norm_num [updateEnemies, updateEnemiesLoop, enemyStep, enemyPulled, enemyMove, blackHoleLoop,
      wormholeLoop, collisionAtGameOver, collisionEnemyMoved, collisionGame, newGame, createPlayer,
      sampleEnv, normalizeAlongX, Vec3.sub, Vec3.add, Vec3.multiplyScalar, Vec3.distanceToSq,
      Vec3.lengthSq, gameOver]
  have ha : afterEnemies sampleEnv collisionAtGameOver = .ok collisionAfterPasses := by
    norm_num [afterEnemies, updateBullets, updateBulletsLoop, bulletHitLoop, moveBullet,
      updatePowerUps, updatePowerUpsLoop, replenishPowerUps, createPowerUp, jsIndex,
      powerUpTypes, updateBlackHoles, updateBlackHolesLoop, updateParticleSystem, bossPass,
      collisionAfterPasses, collisionAtGameOver, collisionEnemyMoved, gameOver, collisionGame,
      newGame, createPlayer, sampleEnv, Vec3.sub, Vec3.add, Vec3.multiplyScalar,
      Vec3.distanceToSq, Vec3.lengthSq]
  refine ⟨⟨?_, ?_, rfl, rfl, he, rfl, ha, ?_⟩, ?_, ?_, ?_, rfl⟩
  · norm_num [enemyMove, collisionGame, newGame, createPlayer, sampleEnv, normalizeAlongX,
      Vec3.sub, Vec3.add, Vec3.multiplyScalar]
  · norm_num [collisionGame, newGame, createPlayer, Vec3.distanceToSq, Vec3.sub, Vec3.lengthSq]
  · simp [collisionAfterPasses, collisionAtGameOver, collisionEnemyMoved, gameOver, collisionGame]
  · norm_num [enemyMove, escapeGame, newGame, createPlayer, sampleEnv, normalizeAlongX,
      Vec3.sub, Vec3.add, Vec3.multiplyScalar]
  · norm_num [escapeGame, newGame, createPlayer, Vec3.distanceToSq, Vec3.sub, Vec3.lengthSq]
  · norm_num [updateEnemies, updateEnemiesLoop, enemyStep, enemyPulled, enemyMove, blackHoleLoop,
      wormholeLoop, jsIndex, escapeDone, escapeGame, newGame, createPlayer,
      sampleEnv, normalizeAlongX, Vec3.sub, Vec3.add, Vec3.multiplyScalar, Vec3.distanceToSq,
      Vec3.lengthSq]

/-! ## Black holes -/

/-- C9, the code at the failing input: 1/60 s have passed since the previous tick and both
black holes have exactly 1/60 s left. The black hole handled first gets the whole 1/60 s and
is removed; the other one gets only the 1/60000 s between the two calls of `getDelta` and
stays, with 333/20000 s left. -/
theorem updateBlackHoles_first_only :
    frameEnv.now twoHolesGame.nowCalls - twoHolesGame.clock.oldTime = 1 / 60 ∧
    ∃ g', updateBlackHoles frameEnv twoHolesGame = .ok g' ∧
      g'.blackHoles = [⟨⟨5, 1 / 2, 5⟩, 333 / 20000⟩] := by
  refine ⟨by norm_num [frameEnv, twoHolesGame, newGame],
    { twoHolesGame with
      blackHoles := [⟨⟨5, 1 / 2, 5⟩, 333 / 20000⟩]
      clock := ⟨true, 1 / 60 + 1 / 60000, 1 / 60 + 1 / 60000⟩
      nowCalls := 2 }, ?_, rfl⟩
  norm_num [updateBlackHoles, updateBlackHolesLoop, getDelta, frameEnv, twoHolesGame, newGame,
    sampleEnv]


/-! ## Power-ups -/

theorem collect_nil (g : Game) : collect g [] g.powerUps = g := by
  simp [collect, passedBy, pickedUp, ofType]

theorem collect_far (g : Game) (seen rest : List PowerUp) (p : PowerUp)
    (h : reached g.player.position p = false) :
    collect g (seen ++ [p]) rest = collect g seen (p :: rest) := by
  simp [collect, passedBy, pickedUp, ofType, List.filter_append, h]

theorem collect_near (g : Game) (seen rest others : List PowerUp) (p : PowerUp)
    (h : reached g.player.position p = true) :
    collect { effect p.type g with powerUps := others } seen rest =
      collect g (seen ++ [p]) rest := by
  rcases hp : p.type with _ | _ | _
  · simp [collect, passedBy, pickedUp, ofType, h, hp, effect, List.countP_cons,
      blackHoleAt, pow_succ, List.filter_append, List.countP_append]
    ring
  · simp [collect, passedBy, pickedUp, ofType, h, hp, effect, List.countP_cons,
      blackHoleAt, pow_succ, List.filter_append, List.countP_append]
    ring
  · simp [collect, passedBy, pickedUp, ofType, h, hp, effect, List.countP_cons,
      blackHoleAt, createBlackHole, List.replicate_succ, List.filter_append, List.countP_append]


theorem effect_powerUps (type : PowerUpType) (g : Game) :
    (effect type g).powerUps = g.powerUps := by
  cases type <;> rfl

theorem updatePowerUpsLoop_spec :
    ∀ (i : ℕ) (g : Game), i ≤ g.powerUps.length →
      updatePowerUpsLoop i g = .ok (collect g (g.powerUps.take i) (g.powerUps.drop i)) := by
  intro i
  induction i with
  | zero => intro g _; simp [updatePowerUpsLoop, collect_nil]
  | succ i ih =>
    intro g hi
    obtain ⟨p, hp⟩ := getElem?_of_lt g.powerUps i (by omega)
    have hdrop : g.powerUps.drop i = p :: g.powerUps.drop (i + 1) := by
      rw [List.drop_eq_getElem_cons (lt_length_of_getElem? _ _ _ hp)]
      congr 1
      rw [List.getElem?_eq_getElem (lt_length_of_getElem? _ _ _ hp)] at hp
      exact Option.some.inj hp
    rw [take_succ_of_getElem? _ _ _ hp]
    by_cases hnear : p.position.distanceToSq g.player.position < 1
    · have hstep : updatePowerUpsLoop (i + 1) g =
          updatePowerUpsLoop i
            { effect p.type g with powerUps := (effect p.type g).powerUps.eraseIdx i } := by
        simp [updatePowerUpsLoop, hp, hnear]
      rw [hstep, ih _ (by simp [effect_powerUps, List.length_eraseIdx]; split <;> omega)]
      simp only [effect_powerUps, take_eraseIdx_self, drop_eraseIdx_self]
      rw [collect_near g _ _ _ p (by simp [reached, hnear])]
    · have hstep : updatePowerUpsLoop (i + 1) g = updatePowerUpsLoop i g := by
        simp [updatePowerUpsLoop, hp, hnear]
      rw [hstep, ih g (by omega), hdrop, collect_far g _ _ p (by simp [reached, hnear])]

/-- C10. With every draw of `Math.random()` in `[0, 1)`, one run of `updatePowerUps` returns
with the effect of every power-up within distance 1 of the player applied exactly once: the
player speed times 3/2 per speed boost reached, the combo times 2 per score multiplier
reached, and one black hole at the player's x and z with height 1/2 and lifespan 10 per
black-hole power-up reached. Exactly the reached power-ups are gone, the others keep their
order, and exactly one new power-up follows them if they are fewer than `level`, none
otherwise. -/
theorem updatePowerUps_pickups (env : Env) (g : Game) (hr : RandomOk env) :
    ∃ (g' : Game) (new : List PowerUp), updatePowerUps env g = .ok g' ∧
      g'.player.speed =
        g.player.speed *
          (3 / 2) ^ ofType PowerUpType.SpeedBoost (pickedUp g.player.position g.powerUps) ∧
      g'.combo =
        g.combo * 2 ^ ofType PowerUpType.ScoreMultiplier (pickedUp g.player.position g.powerUps) ∧
      g'.blackHoles =
        g.blackHoles ++
          List.replicate (ofType PowerUpType.BlackHole (pickedUp g.player.position g.powerUps))
            (blackHoleAt g.player.position) ∧
      g'.powerUps = passedBy g.player.position g.powerUps ++ new ∧
      new.length = (if (passedBy g.player.position g.powerUps).length < g.level then 1 else 0) ∧
      g'.player.position = g.player.position ∧ g'.score = g.score ∧ g'.level = g.level := by
  have hloop := updatePowerUpsLoop_spec g.powerUps.length g (le_refl _)
  rw [List.take_length, List.drop_length] at hloop
  by_cases hfew : (passedBy g.player.position g.powerUps).length < g.level
  · obtain ⟨p, hp⟩ := createPowerUp_ok env (collect g g.powerUps []) hr
    refine ⟨{ collect g g.powerUps [] with
        randCalls := g.randCalls + 3
        powerUps := passedBy g.player.position g.powerUps ++ [p] }, [p], ?_, rfl, rfl, rfl, rfl,
      by simp [hfew], rfl, rfl, rfl⟩
    simp only [updatePowerUps, hloop, replenishPowerUps, hp]
    simp [collect, hfew]
  · refine ⟨collect g g.powerUps [], [], ?_, rfl, rfl, rfl, by simp [collect],
      by simp [hfew], rfl, rfl, rfl⟩
    simp only [updatePowerUps, hloop, replenishPowerUps]
    simp [collect, hfew]

/-- Witness for C10: `pickupGame` with the sample draws. -/
theorem updatePowerUps_pickups_witness :
    ∃ (g' : Game) (new : List PowerUp), updatePowerUps sampleEnv pickupGame = .ok g' ∧
      g'.player.speed =
        pickupGame.player.speed *
          (3 / 2) ^ ofType PowerUpType.SpeedBoost
            (pickedUp pickupGame.player.position pickupGame.powerUps) ∧
      g'.combo =
        pickupGame.combo *
          2 ^ ofType PowerUpType.ScoreMultiplier
            (pickedUp pickupGame.player.position pickupGame.powerUps) ∧
      g'.blackHoles =
        pickupGame.blackHoles ++
          List.replicate
            (ofType PowerUpType.BlackHole
              (pickedUp pickupGame.player.position pickupGame.powerUps))
            (blackHoleAt pickupGame.player.position) ∧
      g'.powerUps = passedBy pickupGame.player.position pickupGame.powerUps ++ new ∧
      new.length =
        (if (passedBy pickupGame.player.position pickupGame.powerUps).length < pickupGame.level
          then 1 else 0) ∧
      g'.player.position = pickupGame.player.position ∧ g'.score = pickupGame.score ∧
      g'.level = pickupGame.level :=
  updatePowerUps_pickups sampleEnv pickupGame sampleEnv_randomOk

/-! ## Score and combo -/

theorem Grows.refl (g : Game) : Grows g g := fun _ => ⟨le_refl _, le_refl _⟩

theorem Grows.trans {a b c : Game} (h1 : Grows a b) (h2 : Grows b c) : Grows a c := by
  intro h
  obtain ⟨hs, hc⟩ := h1 h
  obtain ⟨hs', hc'⟩ := h2 (le_trans h hc)
  exact ⟨le_trans hs hs', le_trans hc hc'⟩

theorem Grows.of_eq {a b : Game} (hs : b.score = a.score) (hc : b.combo = a.combo) :
    Grows a b := fun _ => ⟨by rw [hs], by rw [hc]⟩

theorem Grows.of_add {a b : Game} (c : ℤ) (hc0 : 0 ≤ c) (hs : b.score = a.score + c * a.combo)
    (hc : b.combo = a.combo) : Grows a b := by
  intro h
  refine ⟨?_, by rw [hc]⟩
  rw [hs]
  nlinarith

/-! ### updatePlayer -/

theorem updatePlayer_grows (env : Env) (target : Option Vec3) (g : Game) :
    Grows g (stateOf (updatePlayer env target g)) :=
  Grows.refl g

/-! ### updateEnemies -/

theorem enemyPulled_grows (env : Env) (i : ℕ) (enemy : Enemy) (g : Game) :
    Grows g (enemyPulled env i enemy g) := by
  unfold enemyPulled
  split
  · exact Grows.of_add 50 (by norm_num) rfl rfl
  · exact Grows.of_eq rfl rfl

theorem enemyStep_grows (env : Env) (i : ℕ) (enemy : Enemy) (g : Game) :
    (∀ g1 p, enemyStep env i enemy g = .ok (g1, p) → Grows g g1) ∧
    (∀ g1, enemyStep env i enemy g = .error g1 → Grows g g1) := by
  have hp := enemyPulled_grows env i enemy g
  unfold enemyStep
  split
  · refine ⟨fun g1 p h => ?_, fun g1 h => (by cases h)⟩
    cases h
    exact hp
  · split
    · refine ⟨fun g1 p h => (by cases h), fun g1 h => ?_⟩
      cases h
      exact hp.trans (Grows.of_eq rfl rfl)
    · refine ⟨fun g1 p h => ?_, fun g1 h => (by cases h)⟩
      cases h
      exact hp.trans (Grows.of_eq rfl rfl)
  · split
    · refine ⟨fun g1 p h => (by cases h), fun g1 h => ?_⟩
      cases h
      exact hp.trans (Grows.of_eq rfl rfl)
    · refine ⟨fun g1 p h => ?_, fun g1 h => (by cases h)⟩
      cases h
      exact hp.trans (Grows.of_eq rfl rfl)

theorem updateEnemiesLoop_grows (env : Env) :
    ∀ (i : ℕ) (g : Game), Grows g (stateOf (updateEnemiesLoop env i g)) := by
  intro i
  induction i with
  | zero => intro g; exact Grows.refl g
  | succ i ih =>
    intro g
    unfold updateEnemiesLoop
    cases hi : g.enemies[i]? with
    | none => exact Grows.refl g
    | some enemy =>
      simp only
      cases hs : enemyStep env i enemy g with
      | error g1 => exact (enemyStep_grows env i enemy g).2 g1 hs
      | ok r =>
        obtain ⟨g1, p⟩ := r
        have h1 := (enemyStep_grows env i enemy g).1 g1 p hs
        cases p with
        | none => exact h1.trans (ih g1)
        | some position =>
          simp only
          split
          · exact h1.trans (Grows.of_eq rfl rfl)
          · exact h1.trans (ih g1)

/-! ### updateBullets -/

theorem updateBullets_grows (g : Game) : Grows g (stateOf (updateBullets g)) := by
  obtain ⟨g', n, h, _, _, hs, hc, _⟩ := updateBulletsLoop_spec g.bullets.length g (le_refl _)
  rw [updateBullets, h]
  intro h1
  refine ⟨?_, by simp [stateOf, hc]⟩
  simp only [stateOf, hs]
  have : (0 : ℤ) ≤ n := Int.natCast_nonneg n
  nlinarith


/-! ### updatePowerUps -/

theorem collect_grows (g : Game) (seen rest : List PowerUp) : Grows g (collect g seen rest) := by
  intro h
  refine ⟨le_refl _, ?_⟩
  simp only [collect]
  have : (1 : ℤ) ≤ 2 ^ ofType PowerUpType.ScoreMultiplier (pickedUp g.player.position seen) :=
    one_le_pow₀ (by norm_num)
  nlinarith

theorem replenishPowerUps_grows (env : Env) (g : Game) :
    Grows g (stateOf (replenishPowerUps env g)) := by
  unfold replenishPowerUps
  split
  · rcases createPowerUp_cases env g with h | ⟨p, h⟩ <;> rw [h] <;> exact Grows.of_eq rfl rfl
  · exact Grows.refl g

theorem updatePowerUps_grows (env : Env) (g : Game) :
    Grows g (stateOf (updatePowerUps env g)) := by
  have hloop := updatePowerUpsLoop_spec g.powerUps.length g (le_refl _)
  simp only [updatePowerUps, hloop]
  exact (collect_grows g _ _).trans (replenishPowerUps_grows env _)

/-! ### updateBlackHoles -/

theorem getDelta_score_combo (env : Env) (g : Game) :
    (getDelta env g).2.score = g.score ∧ (getDelta env g).2.combo = g.combo := by
  unfold getDelta
  split <;> exact ⟨rfl, rfl⟩

theorem updateBlackHolesLoop_grows (env : Env) :
    ∀ (i : ℕ) (g : Game), Grows g (stateOf (updateBlackHolesLoop env i g)) := by
  intro i
  induction i with
  | zero => intro g; exact Grows.refl g
  | succ i ih =>
    intro g
    unfold updateBlackHolesLoop
    cases hi : g.blackHoles[i]? with
    | none => exact Grows.refl g
    | some blackHole =>
      simp only
      have hd := getDelta_score_combo env g
      split
      · exact (Grows.of_eq (b := { (getDelta env g).2 with
          blackHoles := g.blackHoles.eraseIdx i }) hd.1 hd.2).trans (ih _)
      · exact (Grows.of_eq (b := { (getDelta env g).2 with
          blackHoles := g.blackHoles.set i
            { blackHole with lifespan := blackHole.lifespan - (getDelta env g).1 } })
          hd.1 hd.2).trans (ih _)

/-! ### levelUp and the boss -/

theorem levelUp_grows (env : Env) (g : Game) : Grows g (stateOf (levelUp env g)) := by
  obtain ⟨ws, es, ps, m, h⟩ := levelUp_state env g
  rw [h]
  exact Grows.of_eq rfl rfl

theorem defeatBoss_grows (env : Env) (g : Game) : Grows g (stateOf (defeatBoss env g)) := by
  unfold defeatBoss
  split
  · exact Grows.refl g
  · exact (Grows.of_add (b := { g with boss := none, score := g.score + 1000 * g.combo })
      1000 (by norm_num) rfl rfl).trans (levelUp_grows env _)

theorem updateBossLoop_grows (env : Env) :
    ∀ (i : ℕ) (g : Game), Grows g (stateOf (updateBossLoop env i g)) := by
  intro i
  induction i with
  | zero => intro g; exact Grows.refl g
  | succ i ih =>
    intro g
    unfold updateBossLoop
    split
    · exact Grows.refl g
    · exact Grows.refl g
    · rename_i bullet boss _ _
      split
      · split
        · have hd := defeatBoss_grows env (createExplosion
            { g with boss := some { boss with hp := boss.hp - 1 }
                     bullets := g.bullets.eraseIdx i })
          have h0 : Grows g (createExplosion
            { g with boss := some { boss with hp := boss.hp - 1 }
                     bullets := g.bullets.eraseIdx i }) := Grows.of_eq rfl rfl
          cases hdb : defeatBoss env (createExplosion
            { g with boss := some { boss with hp := boss.hp - 1 }
                     bullets := g.bullets.eraseIdx i }) with
          | error g1 =>
            rw [hdb] at hd
            exact h0.trans hd
          | ok g1 =>
            rw [hdb] at hd
            exact (h0.trans hd).trans (ih g1)
        · exact (Grows.of_eq (b := createExplosion
            { g with boss := some { boss with hp := boss.hp - 1 }
                     bullets := g.bullets.eraseIdx i }) rfl rfl).trans (ih _)
      · exact ih g

theorem getElapsedTime_score_combo (env : Env) (g : Game) :
    (getElapsedTime env g).2.score = g.score ∧ (getElapsedTime env g).2.combo = g.combo :=
  getDelta_score_combo env g

theorem moveBoss_score_combo (env : Env) (boss : Boss) (g : Game) :
    (moveBoss env boss g).score = g.score ∧ (moveBoss env boss g).combo = g.combo := by
  have h1 := getElapsedTime_score_combo env g
  have h2 := getElapsedTime_score_combo env (getElapsedTime env g).2
  exact ⟨h2.1.trans h1.1, h2.2.trans h1.2⟩

theorem updateBoss_grows (env : Env) (g : Game) : Grows g (stateOf (updateBoss env g)) := by
  unfold updateBoss
  split
  · exact Grows.refl g
  · rename_i boss _
    have hm := moveBoss_score_combo env boss g
    split
    · exact (Grows.of_eq (b := bossFire env (movedBoss env boss g) (moveBoss env boss g))
        hm.1 hm.2).trans (updateBossLoop_grows env _ _)
    · exact (Grows.of_eq hm.1 hm.2).trans (updateBossLoop_grows env _ _)

theorem updateBossBulletsLoop_grows :
    ∀ (i : ℕ) (g : Game), Grows g (stateOf (updateBossBulletsLoop i g)) := by
  intro i
  induction i with
  | zero => intro g; exact Grows.refl g
  | succ i ih =>
    intro g
    unfold updateBossBulletsLoop
    split
    · exact Grows.refl g
    · rename_i bullet _
      split
      · exact Grows.of_eq rfl rfl
      · split
        · exact (Grows.of_eq (b := { g with bossBullets := g.bossBullets.eraseIdx i })
            rfl rfl).trans (ih _)
        · exact (Grows.of_eq
            (b := { g with
              bossBullets :=
                g.bossBullets.set i
                  { bullet with position := bullet.position.add bullet.velocity } })
            rfl rfl).trans (ih _)

theorem bossPass_grows (env : Env) (g : Game) : Grows g (stateOf (bossPass env g)) := by
  unfold bossPass
  split
  · have h := updateBoss_grows env g
    cases hb : updateBoss env g with
    | error g1 => rw [hb] at h; exact h
    | ok g1 => rw [hb] at h; exact h.trans (updateBossBulletsLoop_grows _ g1)
  · exact Grows.refl g

/-! ### The frame and the other operations -/

theorem afterEnemies_grows (env : Env) (g : Game) : Grows g (stateOf (afterEnemies env g)) := by
  unfold afterEnemies
  have h1 := updateBullets_grows g
  cases e1 : updateBullets g with
  | error g1 => rw [e1] at h1; exact h1
  | ok g1 =>
    rw [e1] at h1
    dsimp only
    have h2 := updatePowerUps_grows env g1
    cases e2 : updatePowerUps env g1 with
    | error g2 => rw [e2] at h2; exact h1.trans h2
    | ok g2 =>
      rw [e2] at h2
      dsimp only
      have h3 := updateBlackHolesLoop_grows env g2.blackHoles.length g2
      cases e3 : updateBlackHoles env g2 with
      | error g3 =>
        rw [updateBlackHoles] at e3
        rw [e3] at h3
        exact (h1.trans h2).trans h3
      | ok g3 =>
        rw [updateBlackHoles] at e3
        rw [e3] at h3
        exact ((h1.trans h2).trans h3).trans
          ((Grows.of_eq (b := updateParticleSystem g3) rfl rfl).trans (bossPass_grows env _))

theorem animate_grows (env : Env) (target : Option Vec3) (g : Game) :
    Grows g (stateOf (animate env target g)) := by
  unfold animate
  have h1 := updatePlayer_grows env target g
  cases e1 : updatePlayer env target g with
  | error g1 => rw [e1] at h1; exact h1
  | ok g1 =>
    rw [e1] at h1
    dsimp only
    have h2 := updateEnemiesLoop_grows env g1.enemies.length g1
    cases e2 : updateEnemies env g1 with
    | error g2 =>
      rw [updateEnemies] at e2
      rw [e2] at h2
      exact h1.trans h2
    | ok g2 =>
      rw [updateEnemies] at e2
      rw [e2] at h2
      exact (h1.trans h2).trans (afterEnemies_grows env g2)

theorem hyperJumpFrame_grows (env : Env) (distance : ℚ) (g : Game) :
    Grows g (stateOf (hyperJumpFrame env distance g)) := by
  unfold hyperJumpFrame
  split
  · exact Grows.of_eq rfl rfl
  · exact (Grows.of_eq (b := { g with
      player := { g.player with
        position := { g.player.position with z := g.player.position.z - 2 } } })
      rfl rfl).trans (levelUp_grows env _)

theorem activateHyperJump_grows (env : Env) (g : Game) :
    Grows g (stateOf (activateHyperJump env g)) := by
  unfold activateHyperJump
  split
  · have h := hyperJumpFrame_grows env 0 { g with hyperJumpReady := false }
    have h0 : Grows g { g with hyperJumpReady := false } := Grows.of_eq rfl rfl
    cases e : hyperJumpFrame env 0 { g with hyperJumpReady := false } with
    | error g1 => rw [e] at h; exact h0.trans h
    | ok g1 => rw [e] at h; exact (h0.trans h).trans (Grows.of_eq rfl rfl)
  · exact Grows.refl g

theorem effect_grows (type : PowerUpType) (g : Game) : Grows g (effect type g) := by
  cases type
  · exact Grows.of_eq rfl rfl
  · intro h
    exact ⟨le_refl _, by simp only [effect]; omega⟩
  · exact Grows.of_eq rfl rfl

theorem step_grows (env : Env) (op : Op) (g : Game) : Grows g (stateOf (step env op g)) := by
  cases op with
  | animate target => exact animate_grows env target g
  | updatePlayer target => exact updatePlayer_grows env target g
  | updateEnemies => exact updateEnemiesLoop_grows env _ g
  | updateBullets => exact updateBullets_grows g
  | updatePowerUps => exact updatePowerUps_grows env g
  | updateBlackHoles => exact updateBlackHolesLoop_grows env _ g
  | updateParticleSystem => exact Grows.of_eq rfl rfl
  | updateBoss => exact updateBoss_grows env g
  | updateBossBullets => exact updateBossBulletsLoop_grows _ g
  | shoot => exact Grows.of_eq rfl rfl
  | activateTimeWarp =>
    simp only [step, stateOf, activateTimeWarp]
    split
    · exact Grows.refl g
    · exact Grows.of_eq rfl rfl
  | activateHyperJump => exact activateHyperJump_grows env g
  | timer k =>
    simp only [step]
    split
    · exact Grows.refl g
    · exact Grows.of_eq rfl rfl
    · exact Grows.of_eq rfl rfl
  | jumpFrame k =>
    simp only [step]
    split
    · exact Grows.refl g
    · exact (Grows.of_eq (b := { g with jumps := g.jumps.eraseIdx k }) rfl rfl).trans
        (hyperJumpFrame_grows env _ _)
  | levelUp => exact levelUp_grows env g
  | effect type => exact effect_grows type g
  | defeatBoss => exact defeatBoss_grows env g

theorem init_score_combo (env : Env) (g : Game) :
    (stateOf (init env g)).score = g.score ∧ (stateOf (init env g)).combo = g.combo := by
  obtain ⟨ws, _, h1⟩ := createWormholesLoop_spec env g.level g
  have e1 : createWormholes env g =
      { g with wormholes := g.wormholes ++ ws, randCalls := g.randCalls + 2 * g.level } := by
    simp only [createWormholes, h1]
  obtain ⟨es, _, h2⟩ := spawnEnemiesLoop_spec env (g.level * 5)
    { g with wormholes := g.wormholes ++ ws, randCalls := g.randCalls + 2 * g.level }
  have e2 : spawnEnemies env (createWormholes env g) =
      { g with
        wormholes := g.wormholes ++ ws
        enemies := g.enemies ++ es
        randCalls := g.randCalls + 2 * g.level + 3 * (g.level * 5) } := by
    simp only [e1, spawnEnemies, h2]
  obtain ⟨ps, m, h3⟩ := spawnPowerUpsLoop_state env g.level
    { g with
      wormholes := g.wormholes ++ ws
      enemies := g.enemies ++ es
      randCalls := g.randCalls + 2 * g.level + 3 * (g.level * 5) }
  simp only [init, e2, spawnPowerUps]
  cases h : spawnPowerUpsLoop env g.level
      { g with
        wormholes := g.wormholes ++ ws
        enemies := g.enemies ++ es
        randCalls := g.randCalls + 2 * g.level + 3 * (g.level * 5) } with
  | error g1 =>
    rw [h] at h3
    simp only [stateOf] at h3 ⊢
    rw [h3]
    exact ⟨rfl, rfl⟩
  | ok g1 =>
    rw [h] at h3
    simp only [stateOf] at h3 ⊢
    rw [h3]
    split <;> exact ⟨rfl, rfl⟩

theorem init_reachable (env : Env) : Reachable env (stateOf (init env newGame)) :=
  Reachable.start _ (init_score_combo env newGame).1 (init_score_combo env newGame).2

/-- C8. In every state a game can reach from a start with score 0 and combo 1, through
frames, the update methods of a frame called by themselves, shots, time warps, hyper jumps,
pending callbacks, level-ups, power-up effects and boss defeats, whether they return or
throw, the score is at least 0 and the combo at least 1, and no operation on it, finished or
interrupted, makes the score or the combo smaller. -/
theorem score_combo_never_decrease (env : Env) (g : Game) (h : Reachable env g) :
    (0 ≤ g.score ∧ 1 ≤ g.combo) ∧
    ∀ op : Op, g.score ≤ (stateOf (step env op g)).score ∧
      g.combo ≤ (stateOf (step env op g)).combo := by
  have hinv : 0 ≤ g.score ∧ 1 ≤ g.combo := by
    induction h with
    | start g hs hc => exact ⟨by rw [hs], by rw [hc]⟩
    | next op g _ ih =>
      obtain ⟨hs, hc⟩ := step_grows env op g ih.2
      exact ⟨le_trans ih.1 hs, le_trans ih.2 hc⟩
  exact ⟨hinv, fun op => step_grows env op g hinv.2⟩


/-- Witness for C8: the fresh game after one score multiplier is reachable. -/
theorem score_combo_never_decrease_witness :
    (0 ≤ doubledGame.score ∧ 1 ≤ doubledGame.combo) ∧
    ∀ op : Op, doubledGame.score ≤ (stateOf (step sampleEnv op doubledGame)).score ∧
      doubledGame.combo ≤ (stateOf (step sampleEnv op doubledGame)).combo :=
  score_combo_never_decrease sampleEnv doubledGame
    (Reachable.next (Op.effect PowerUpType.ScoreMultiplier) newGame
      (Reachable.start newGame rfl rfl))

/-! ## Hyper jump -/

theorem jumpFrame_pending (env : Env) (g : Game) (js : List ℚ) (d : ℚ)
    (hj : g.jumps = js ++ [d]) (hd : d + 2 < 100) :
    step env (Op.jumpFrame js.length) g = .ok (jumped g 2 (js ++ [d + 2])) := by
  have hget : g.jumps[js.length]? = some d := by
    rw [hj, List.getElem?_append_right (le_refl _)]; simp
  have herase : g.jumps.eraseIdx js.length = js := by
    rw [hj]; simpa using eraseIdx_append_cons js [] d
  simp only [step, hget, hyperJumpFrame, if_pos hd, herase, jumped]

theorem jumpFrame_last (env : Env) (g : Game) (js : List ℚ) (d : ℚ)
    (hj : g.jumps = js ++ [d]) (hd : ¬ d + 2 < 100) :
    step env (Op.jumpFrame js.length) g = levelUp env (jumped g 2 js) := by
  have hget : g.jumps[js.length]? = some d := by
    rw [hj, List.getElem?_append_right (le_refl _)]; simp
  have herase : g.jumps.eraseIdx js.length = js := by
    rw [hj]; simpa using eraseIdx_append_cons js [] d
  simp only [step, hget, hyperJumpFrame, if_neg hd, herase, jumped]

theorem jumped_zero (g : Game) : jumped g 0 g.jumps = g := by
  rcases g with ⟨⟨⟨x, y, z⟩, s, f⟩⟩
  simp [jumped]

theorem jumped_jumped (g : Game) (a b : ℚ) (js js' : List ℚ) :
    jumped (jumped g a js) b js' = jumped g (a + b) js' := by
  simp only [jumped, Game.mk.injEq, Player.mk.injEq, Vec3.mk.injEq, true_and, and_true]
  ring

theorem jumpFrames_pending (env : Env) (js : List ℚ) :
    ∀ (n : ℕ) (d : ℚ) (g : Game), g.jumps = js ++ [d] → d + 2 * (n : ℚ) < 100 →
      jumpFrames env js.length n g = .ok (jumped g (2 * (n : ℚ)) (js ++ [d + 2 * (n : ℚ)])) := by
  intro n
  induction n with
  | zero =>
    intro d g hj _
    have h0 : jumped g (2 * ((0 : ℕ) : ℚ)) (js ++ [d + 2 * ((0 : ℕ) : ℚ)]) = jumped g 0 g.jumps := by
      rw [hj]; norm_num
    rw [h0, jumped_zero]
    rfl
  | succ n ih =>
    intro d g hj hd
    push_cast at hd ⊢
    have h1 := jumpFrame_pending env g js d hj (by linarith)
    simp only [jumpFrames, h1]
    rw [ih (d + 2) (jumped g 2 (js ++ [d + 2])) rfl (by linarith), jumped_jumped]
    congr 2
    · ring
    · congr 2; ring

theorem jumpFrames_last (env : Env) (js : List ℚ) (n : ℕ) (d : ℚ) (g : Game)
    (hj : g.jumps = js ++ [d]) (hd : d + 2 * (n : ℚ) < 100) (hlast : ¬ d + 2 * (n : ℚ) + 2 < 100) :
    jumpFrames env js.length (n + 1) g = levelUp env (jumped g (2 * (n : ℚ) + 2) js) := by
  induction n generalizing d g with
  | zero =>
    have h1 := jumpFrame_last env g js d hj (by simpa using hlast)
    simp only [jumpFrames, h1]
    have : jumped g (2 * ((0 : ℕ) : ℚ) + 2) js = jumped g 2 js := by norm_num
    rw [this]
    cases levelUp env (jumped g 2 js) <;> rfl
  | succ n ih =>
    push_cast at hd hlast ⊢
    have h1 := jumpFrame_pending env g js d hj (by linarith)
    rw [jumpFrames]
    simp only [h1]
    rw [ih (d + 2) (jumped g 2 (js ++ [d + 2])) rfl (by linarith) (by intro h; apply hlast; linarith),
      jumped_jumped]
    congr 2
    ring


/-- C11. With every draw of `Math.random()` in `[0, 1)`: when the hyper jump is ready,
`activateHyperJump` returns with `hyperJumpReady` false, having run the first step of the
jump. Each of the next 48 runs of its frame callback moves the player by a further 2 along
negative z, leaves the level as it was and leaves the callback pending. The 49th run, the
50th step, brings the total to 100, calls `levelUp` (the level goes up by exactly 1) and
leaves no callback pending. When the hyper jump is not ready, `activateHyperJump` returns the
state it was given. -/
theorem activateHyperJump_fifty_steps (env : Env) (g : Game) (hr : RandomOk env) :
    (g.hyperJumpReady = true →
      ∃ g1, activateHyperJump env g = .ok g1 ∧ g1.hyperJumpReady = false ∧
        g1.level = g.level ∧ g1.player.position.z = g.player.position.z - 2 ∧
        g1.jumps = g.jumps ++ [2] ∧
        (∀ n : ℕ, n < 49 →
          ∃ gn, jumpFrames env g.jumps.length n g1 = .ok gn ∧ gn.level = g.level ∧
            gn.player.position.z = g.player.position.z - 2 * ((n : ℚ) + 1) ∧
            gn.jumps = g.jumps ++ [2 * ((n : ℚ) + 1)]) ∧
        ∃ g', jumpFrames env g.jumps.length 49 g1 = .ok g' ∧ g'.level = g.level + 1 ∧
          g'.player.position.z = g.player.position.z - 100 ∧ g'.jumps = g.jumps ∧
          g'.hyperJumpReady = false) ∧
    (g.hyperJumpReady = false → activateHyperJump env g = .ok g) := by
  constructor
  · intro hready
    have hact : activateHyperJump env g = .ok
        { jumped g 2 (g.jumps ++ [2]) with
          hyperJumpReady := false
          timers := g.timers ++ [Timer.hyperJumpCooldown] } := by
      simp only [activateHyperJump, hready, if_true, hyperJumpFrame, jumped]
      norm_num
    refine ⟨_, hact, rfl, rfl, rfl, rfl, ?_, ?_⟩
    · intro n hn
      have hlt : (2 : ℚ) + 2 * (n : ℚ) < 100 := by
        have : (n : ℚ) < 49 := by exact_mod_cast hn
        linarith
      refine ⟨_, jumpFrames_pending env g.jumps n 2 _ rfl hlt, rfl, ?_, ?_⟩
      · simp only [jumped]; ring
      · simp only [jumped]; congr 2; ring
    · have h48 := jumpFrames_last env g.jumps 48 2
        { jumped g 2 (g.jumps ++ [2]) with
          hyperJumpReady := false
          timers := g.timers ++ [Timer.hyperJumpCooldown] } rfl (by norm_num) (by norm_num)
      obtain ⟨ws, es, ps, _, _, _, hlevel⟩ := levelUp_ok env
        (jumped { jumped g 2 (g.jumps ++ [2]) with
          hyperJumpReady := false
          timers := g.timers ++ [Timer.hyperJumpCooldown] } (2 * ((48 : ℕ) : ℚ) + 2) g.jumps) hr
      refine ⟨_, h48.trans hlevel, rfl, ?_, rfl, rfl⟩
      simp only [jumped]
      norm_num
      ring
  · intro hnot
    simp [activateHyperJump, hnot]

/-- Witness for C11: the fresh game, whose hyper jump is ready, and `coolingGame`, whose hyper
jump is not. -/
theorem activateHyperJump_fifty_steps_witness :
    (∃ g1, activateHyperJump sampleEnv newGame = .ok g1 ∧ g1.hyperJumpReady = false ∧
        g1.level = newGame.level ∧
        g1.player.position.z = newGame.player.position.z - 2 ∧
        g1.jumps = newGame.jumps ++ [2] ∧
        (∀ n : ℕ, n < 49 →
          ∃ gn, jumpFrames sampleEnv newGame.jumps.length n g1 = .ok gn ∧
            gn.level = newGame.level ∧
            gn.player.position.z = newGame.player.position.z - 2 * ((n : ℚ) + 1) ∧
            gn.jumps = newGame.jumps ++ [2 * ((n : ℚ) + 1)]) ∧
        ∃ g', jumpFrames sampleEnv newGame.jumps.length 49 g1 = .ok g' ∧
          g'.level = newGame.level + 1 ∧
          g'.player.position.z = newGame.player.position.z - 100 ∧
          g'.jumps = newGame.jumps ∧ g'.hyperJumpReady = false) ∧
    activateHyperJump sampleEnv coolingGame = .ok coolingGame :=
  ⟨(activateHyperJump_fifty_steps sampleEnv newGame sampleEnv_randomOk).1 rfl,
    (activateHyperJump_fifty_steps sampleEnv coolingGame sampleEnv_randomOk).2 rfl⟩

/-! ## Boss defeat -/

theorem updateBossLoop_run (env : Env) (pre : List Bullet) :
    ∀ (mid post : List Bullet) (g : Game) (boss : Boss), g.boss = some boss →
      g.bullets = pre ++ mid ++ post →
      ((striking boss.position mid).length : ℤ) < boss.hp →
      ∃ g', updateBossLoop env (pre.length + mid.length) g = updateBossLoop env pre.length g' ∧
        g'.boss = some { boss with hp := boss.hp - (striking boss.position mid).length } ∧
        g'.bullets = pre ++ missing boss.position mid ++ post ∧
        g'.score = g.score ∧ g'.combo = g.combo ∧ g'.level = g.level := by
  intro mid
  induction mid using List.reverseRecOn with
  | nil =>
    intro post g boss hboss hbullets _
    exact ⟨g, rfl, by simp [striking, hboss], by simpa [missing] using hbullets, rfl, rfl, rfl⟩
  | append_singleton mid b ih =>
    intro post g boss hboss hbullets hhp
    have hget : g.bullets[pre.length + mid.length]? = some b := by
      rw [hbullets]
      have : pre ++ (mid ++ [b]) ++ post = (pre ++ mid) ++ b :: post := by simp
      rw [this, List.getElem?_append_right (by simp)]
      simp
    have herase : g.bullets.eraseIdx (pre.length + mid.length) = pre ++ mid ++ post := by
      rw [hbullets]
      have : pre ++ (mid ++ [b]) ++ post = (pre ++ mid) ++ b :: post := by simp
      rw [this, ← List.length_append, eraseIdx_append_cons]
    have hlen : pre.length + (mid ++ [b]).length = (pre.length + mid.length) + 1 := by
      simp; omega
    rw [hlen]
    by_cases hs : strikes boss.position b
    · have hcount : (striking boss.position (mid ++ [b])).length =
          (striking boss.position mid).length + 1 := by
        simp [striking, List.filter_append, hs]
      rw [hcount] at hhp
      push_cast at hhp
      have hnot : ¬ boss.hp - 1 ≤ 0 := by
        have : (0 : ℤ) ≤ (striking boss.position mid).length := Int.natCast_nonneg _
        omega
      have hstep : updateBossLoop env (pre.length + mid.length + 1) g =
          updateBossLoop env (pre.length + mid.length)
            (createExplosion
              { g with boss := some { boss with hp := boss.hp - 1 }
                       bullets := g.bullets.eraseIdx (pre.length + mid.length) }) := by
        have hs' : b.position.distanceToSq boss.position < 9 := hs
        rw [updateBossLoop]
        simp only [hget, hboss, if_pos hs', if_neg hnot]
      obtain ⟨g', h1, h2, h3, h4, h5, h6⟩ := ih post
        (createExplosion
          { g with boss := some { boss with hp := boss.hp - 1 }
                   bullets := g.bullets.eraseIdx (pre.length + mid.length) })
        { boss with hp := boss.hp - 1 } rfl (by simpa [createExplosion] using herase)
        (by simp only; omega)
      refine ⟨g', hstep.trans h1, ?_, ?_, h4, h5, h6⟩
      · rw [h2, hcount]
        simp only [Option.some.injEq]
        congr 1
        push_cast
        ring
      · rw [h3]
        simp [missing, List.filter_append, hs]
    · have hcount : (striking boss.position (mid ++ [b])).length =
          (striking boss.position mid).length := by
        simp [striking, List.filter_append, hs]
      rw [hcount] at hhp
      have hstep : updateBossLoop env (pre.length + mid.length + 1) g =
          updateBossLoop env (pre.length + mid.length) g := by
        have hs' : ¬ b.position.distanceToSq boss.position < 9 := hs
        rw [updateBossLoop]
        simp only [hget, hboss, if_neg hs']
      obtain ⟨g', h1, h2, h3, h4, h5, h6⟩ := ih (b :: post) g boss hboss
        (by rw [hbullets]; simp) hhp
      refine ⟨g', hstep.trans h1, ?_, ?_, h4, h5, h6⟩
      · rw [h2, hcount]
      · rw [h3]
        simp [missing, List.filter_append, hs]


theorem updateBoss_entry (env : Env) (g : Game) (boss : Boss) (hboss : g.boss = some boss) :
    ∃ g0, updateBoss env g = updateBossLoop env g.bullets.length g0 ∧
      g0.boss = some (movedBoss env boss g) ∧ g0.bullets = g.bullets ∧ g0.score = g.score ∧
      g0.combo = g.combo ∧ g0.level = g.level := by
  have hm := moveBoss_score_combo env boss g
  have hb : (moveBoss env boss g).bullets = g.bullets := by
    unfold moveBoss getElapsedTime getDelta
    split <;> split <;> rfl
  have hl : (moveBoss env boss g).level = g.level := by
    unfold moveBoss getElapsedTime getDelta
    split <;> split <;> rfl
  unfold updateBoss
  simp only [hboss]
  split
  · exact ⟨_, rfl, rfl, hb, hm.1, hm.2, hl⟩
  · exact ⟨_, rfl, rfl, hb, hm.1, hm.2, hl⟩

/-- C12, as amended. For a game with a live boss, where the boss is after its move of lines
587-588: when fewer bullets are within distance 3 of it than it has hit points, `updateBoss`
returns, exactly those bullets are gone, the others keep their order, the boss has lost one
hit point for each, and score, combo and level are as before. When, with every draw of
`Math.random()` in `[0, 1)`, the first bullet of the list is within distance 3 and the hit
points are one more than the number of other bullets within distance 3, so that the bullet
examined last brings them to 0, `updateBoss` returns as well: the bullets within distance 3
are gone, the boss is gone, the score is up by `1000 * combo` and the level by 1. -/
theorem updateBoss_completes (env : Env) (g : Game) (boss : Boss) (hboss : g.boss = some boss) :
    (((striking (movedBoss env boss g).position g.bullets).length : ℤ) < boss.hp →
      ∃ g', updateBoss env g = .ok g' ∧
        g'.boss = some
          { movedBoss env boss g with
            hp := boss.hp - (striking (movedBoss env boss g).position g.bullets).length } ∧
        g'.bullets = missing (movedBoss env boss g).position g.bullets ∧
        g'.score = g.score ∧ g'.combo = g.combo ∧ g'.level = g.level) ∧
    (RandomOk env → ∀ (first : Bullet) (rest : List Bullet), g.bullets = first :: rest →
      strikes (movedBoss env boss g).position first →
      boss.hp = (striking (movedBoss env boss g).position rest).length + 1 →
      ∃ g', updateBoss env g = .ok g' ∧ g'.boss = none ∧
        g'.bullets = missing (movedBoss env boss g).position rest ∧
        g'.score = g.score + 1000 * g.combo ∧ g'.combo = g.combo ∧ g'.level = g.level + 1) := by
  obtain ⟨g0, hentry, hb0, hbul, hs0, hc0, hl0⟩ := updateBoss_entry env g boss hboss
  have hhp : (movedBoss env boss g).hp = boss.hp := rfl
  constructor
  · intro hlt
    obtain ⟨g', h1, h2, h3, h4, h5, h6⟩ := updateBossLoop_run env [] g.bullets [] g0
      (movedBoss env boss g) hb0 (by simp [hbul]) (by rw [hhp]; exact hlt)
    refine ⟨g', ?_, h2, by simpa using h3, h4.trans hs0, h5.trans hc0, h6.trans hl0⟩
    rw [hentry]
    simpa [updateBossLoop] using h1
  · intro hr first rest hlist hfirst hone
    obtain ⟨g1, h1, h2, h3, h4, h5, h6⟩ := updateBossLoop_run env [first] rest [] g0
      (movedBoss env boss g) hb0 (by simp [hbul, hlist]) (by rw [hhp, hone]; omega)
    have hlen : g.bullets.length = [first].length + rest.length := by
      rw [hlist]; simp; omega
    have hget : g1.bullets[0]? = some first := by rw [h3]; simp
    have hfirst' : first.position.distanceToSq (movedBoss env boss g).position < 9 := hfirst
    obtain ⟨ws, es, ps, _, _, _, hlevel⟩ := levelUp_ok env
      { createExplosion
          { g1 with
            boss := some
              { movedBoss env boss g with
                hp := boss.hp - (striking (movedBoss env boss g).position rest).length - 1 }
            bullets := g1.bullets.eraseIdx 0 } with
        boss := none
        score := g1.score + 1000 * g1.combo } hr
    have hfin : updateBoss env g = levelUp env
        { createExplosion
            { g1 with
              boss := some
                { movedBoss env boss g with
                  hp := boss.hp - (striking (movedBoss env boss g).position rest).length - 1 }
              bullets := g1.bullets.eraseIdx 0 } with
          boss := none
          score := g1.score + 1000 * g1.combo } := by
      rw [hentry, hlen, h1]
      show updateBossLoop env (0 + 1) g1 = _
      rw [updateBossLoop]
      simp only [hget, h2, if_pos hfirst', hhp, hone]
      simp only [add_sub_cancel_left, sub_self, le_refl, if_true, defeatBoss, createExplosion]
      cases hl : levelUp env _ <;> simp [updateBossLoop]
    rw [hlevel] at hfin
    refine ⟨_, hfin, rfl, ?_, ?_, ?_, ?_⟩
    · simp [createExplosion, h3]
    · simp [createExplosion, h4, h5, hs0, hc0]
    · simp [createExplosion, h5, hc0]
    · simp [createExplosion, h6, hl0]

theorem bossEnv_randomOk : RandomOk bossEnv := fun k => by norm_num [bossEnv, sampleEnv]

/-- Witness for C12: in `bossHitGame` two bullets hit a boss with three hit points, which
stays; in `bossLastGame` the bullet examined last brings the hit points to 0. -/
theorem updateBoss_completes_witness :
    (∃ g', updateBoss bossEnv bossHitGame = .ok g' ∧
        g'.boss = some ⟨⟨0, 5, 0⟩, 1⟩ ∧
        g'.bullets = [⟨⟨30, 1 / 2, 0⟩, 1 / 2, ⟨0, 1, 0⟩⟩] ∧
        g'.score = bossHitGame.score ∧ g'.combo = bossHitGame.combo ∧
        g'.level = bossHitGame.level) ∧
    (∃ g', updateBoss bossEnv bossLastGame = .ok g' ∧ g'.boss = none ∧
        g'.bullets = [⟨⟨30, 1 / 2, 0⟩, 1 / 2, ⟨0, 1, 0⟩⟩] ∧
        g'.score = bossLastGame.score + 1000 * bossLastGame.combo ∧
        g'.combo = bossLastGame.combo ∧ g'.level = bossLastGame.level + 1) := by
  have hhit : movedBoss bossEnv ⟨⟨0, 5, -30⟩, 3⟩ bossHitGame = ⟨⟨0, 5, 0⟩, 3⟩ := by
    norm_num [movedBoss, getElapsedTime, getDelta, bossEnv, sampleEnv, bossHitGame,
      bossLastGame, newGame]
  have hlast : movedBoss bossEnv ⟨⟨0, 5, -30⟩, 2⟩ bossLastGame = ⟨⟨0, 5, 0⟩, 2⟩ := by
    norm_num [movedBoss, getElapsedTime, getDelta, bossEnv, sampleEnv, bossLastGame, newGame]
  have hstriking : striking ⟨0, 5, 0⟩ bossLastGame.bullets =
      [⟨⟨0, 5, 1⟩, 1 / 2, ⟨0, 1, 0⟩⟩, ⟨⟨1, 5, 0⟩, 1 / 2, ⟨0, 1, 0⟩⟩] := by
    norm_num [striking, strikes, List.filter, bossLastGame, newGame, Vec3.distanceToSq,
      Vec3.sub, Vec3.lengthSq]
  have hmissing : missing ⟨0, 5, 0⟩ bossLastGame.bullets = [⟨⟨30, 1 / 2, 0⟩, 1 / 2, ⟨0, 1, 0⟩⟩] := by
    norm_num [missing, strikes, List.filter, bossLastGame, newGame, Vec3.distanceToSq,
      Vec3.sub, Vec3.lengthSq]
  have hrest : striking ⟨0, 5, 0⟩
      [⟨⟨30, 1 / 2, 0⟩, 1 / 2, ⟨0, 1, 0⟩⟩, ⟨⟨1, 5, 0⟩, 1 / 2, ⟨0, 1, 0⟩⟩] =
      [⟨⟨1, 5, 0⟩, 1 / 2, ⟨0, 1, 0⟩⟩] := by
    norm_num [striking, strikes, List.filter, Vec3.distanceToSq, Vec3.sub, Vec3.lengthSq]
  have hrestMissing : missing ⟨0, 5, 0⟩
      [⟨⟨30, 1 / 2, 0⟩, 1 / 2, ⟨0, 1, 0⟩⟩, ⟨⟨1, 5, 0⟩, 1 / 2, ⟨0, 1, 0⟩⟩] =
      [⟨⟨30, 1 / 2, 0⟩, 1 / 2, ⟨0, 1, 0⟩⟩] := by
    norm_num [missing, strikes, List.filter, Vec3.distanceToSq, Vec3.sub, Vec3.lengthSq]
  constructor
  · obtain ⟨g', h1, h2, h3, h4⟩ :=
      (updateBoss_completes bossEnv bossHitGame ⟨⟨0, 5, -30⟩, 3⟩ rfl).1
        (by
          rw [hhit]
          show ((striking ⟨0, 5, 0⟩ bossLastGame.bullets).length : ℤ) < 3
          rw [hstriking]
          norm_num)
    refine ⟨g', h1, ?_, ?_, h4⟩
    · rw [h2, hhit]
      show some (Boss.mk ⟨0, 5, 0⟩ (3 - ((striking ⟨0, 5, 0⟩ bossLastGame.bullets).length : ℤ))) = _
      rw [hstriking]
      norm_num
    · rw [h3, hhit]
      exact hmissing
  · obtain ⟨g', h1, h2, h3, h4⟩ :=
      (updateBoss_completes bossEnv bossLastGame ⟨⟨0, 5, -30⟩, 2⟩ rfl).2 bossEnv_randomOk
        ⟨⟨0, 5, 1⟩, 1 / 2, ⟨0, 1, 0⟩⟩
        [⟨⟨30, 1 / 2, 0⟩, 1 / 2, ⟨0, 1, 0⟩⟩, ⟨⟨1, 5, 0⟩, 1 / 2, ⟨0, 1, 0⟩⟩] rfl
        (by
          rw [hlast]
          norm_num [strikes, Vec3.distanceToSq, Vec3.sub, Vec3.lengthSq])
        (by
          rw [hlast]
          show (2 : ℤ) = _
          rw [hrest]
          norm_num)
    refine ⟨g', h1, h2, ?_, h4⟩
    rw [h3, hlast]
    exact hrestMissing

/-- C12 as stated fails: in `bossGame` the boss has one hit point left and the bullet at
index 1 is within distance 3 of it. `updateBoss` removes that bullet, defeats the boss (the
boss is gone, the score is up by `1000 * combo`, the level is up by 1) and then throws when
it examines the bullet at index 0, because `this.boss` is `null` by then. -/
theorem updateBoss_throws_after_defeat :
    ∃ g', updateBoss bossEnv bossGame = .error g' ∧ g'.boss = none ∧
      g'.score = bossGame.score + 1000 * bossGame.combo ∧ g'.level = bossGame.level + 1 ∧
      g'.bullets = [⟨⟨30, 1 / 2, 0⟩, 1 / 2, ⟨0, 0, -1⟩⟩] := by
  have hm : moveBoss bossEnv ⟨⟨0, 5, -30⟩, 1⟩ bossGame = bossMoved := by
    norm_num [moveBoss, movedBoss, getElapsedTime, getDelta, bossEnv, sampleEnv, bossGame,
      bossMoved, newGame]
  have hstart : updateBoss bossEnv bossGame = updateBossLoop bossEnv 2 bossMoved := by
    rw [← hm]
    norm_num [updateBoss, bossGame, newGame, bossEnv, sampleEnv]
  obtain ⟨ws, es, ps, _, _, _, hlevel⟩ := levelUp_ok bossEnv bossDefeated
    (fun k => by norm_num [bossEnv, sampleEnv])
  have hdefeat : defeatBoss bossEnv (createExplosion
      { bossMoved with
        boss := some ⟨⟨0, 5, 0⟩, 0⟩
        bullets := bossMoved.bullets.eraseIdx 1 }) = levelUp bossEnv bossDefeated := by
    norm_num [defeatBoss, createExplosion, bossDefeated, bossMoved, bossGame, newGame]
  have hloop : updateBossLoop bossEnv (1 + 1) bossMoved = .error
      { bossDefeated with
        level := bossDefeated.level + 1
        wormholes := bossDefeated.wormholes ++ ws
        enemies := bossDefeated.enemies ++ es
        powerUps := bossDefeated.powerUps ++ ps
        randCalls :=
          bossDefeated.randCalls + 2 * (bossDefeated.level + 1) +
            3 * ((bossDefeated.level + 1) * 5) + 3 * (bossDefeated.level + 1) } := by
    have hdist : (Vec3.mk 0 5 1).distanceToSq ⟨0, 5, 0⟩ < 9 := by
      norm_num [Vec3.distanceToSq, Vec3.sub, Vec3.lengthSq]
    have hb : bossMoved.bullets[1]? = some ⟨⟨0, 5, 1⟩, 1 / 2, ⟨0, 0, -1⟩⟩ := rfl
    have hboss : bossMoved.boss = some ⟨⟨0, 5, 0⟩, 1⟩ := rfl
    rw [updateBossLoop]
    simp only [hb, hboss, hdist, if_true, sub_self, le_refl, hdefeat, hlevel]
    rw [updateBossLoop]
    rfl
  exact ⟨_, hstart.trans hloop, rfl, rfl, rfl, rfl⟩

/-! ## Captured enemies -/

/-- C13, the code at the failing input: the enemy of `captureGame` is pulled to within
distance 1 of the black hole and removed, for 50 points. The wormhole loop then still runs
for it, draws a random number and moves it to the wormhole, and the check against the player
still runs for it and calls `gameOver`. -/
theorem captured_enemy_still_acts :
    blackHoleLoop sampleEnv captureGame.blackHoles
        (enemyMove sampleEnv ⟨⟨1, 1 / 2, 0⟩, 1 / 10⟩ captureGame) =
        Pull.captured (some ⟨11 / 40, 1 / 2, 0⟩) ∧
      enemyStep sampleEnv 0 ⟨⟨1, 1 / 2, 0⟩, 1 / 10⟩ captureGame =
        .ok (captureDone, some ⟨0, 1 / 2, 1 / 2⟩) ∧
      updateEnemies sampleEnv captureGame = .ok (gameOver captureDone) ∧
      (gameOver captureDone).gameOverCalls = captureGame.gameOverCalls + 1 := by
  have hmove : enemyMove sampleEnv ⟨⟨1, 1 / 2, 0⟩, 1 / 10⟩ captureGame = ⟨9 / 10, 1 / 2, 0⟩ := by
    norm_num [enemyMove, captureGame, newGame, createPlayer, sampleEnv, normalizeAlongX,
      Vec3.sub, Vec3.add, Vec3.multiplyScalar]
  have habs : |(2 / 5 : ℚ)| = 2 / 5 := abs_of_pos (by norm_num)
  have hpull : blackHoleLoop sampleEnv captureGame.blackHoles ⟨9 / 10, 1 / 2, 0⟩ =
      Pull.captured (some ⟨11 / 40, 1 / 2, 0⟩) := by
    norm_num [habs, blackHoleLoop, captureGame, newGame, sampleEnv, normalizeAlongX,
      Vec3.sub, Vec3.add, Vec3.multiplyScalar, Vec3.distanceToSq, Vec3.lengthSq]
  have hstep : enemyStep sampleEnv 0 ⟨⟨1, 1 / 2, 0⟩, 1 / 10⟩ captureGame =
      .ok (captureDone, some ⟨0, 1 / 2, 1 / 2⟩) := by
    simp only [enemyStep, enemyPulled, hmove, hpull]
    norm_num [wormholeLoop, jsIndex, createExplosion, captureDone, captureGame, newGame,
      sampleEnv, Vec3.sub, Vec3.distanceToSq, Vec3.lengthSq]
  refine ⟨by rw [hmove, hpull], hstep, ?_, rfl⟩
  have hi : captureGame.enemies[0]? = some ⟨⟨1, 1 / 2, 0⟩, 1 / 10⟩ := rfl
  have hnear : (Vec3.mk 0 (1 / 2) (1 / 2)).distanceToSq captureDone.player.position < 1 := by
    norm_num [captureDone, captureGame, newGame, createPlayer, Vec3.distanceToSq, Vec3.sub,
      Vec3.lengthSq]
  show updateEnemiesLoop sampleEnv (0 + 1) captureGame = _
  simp only [updateEnemiesLoop, hi, hstep, if_pos hnear]

end GeometryWars
